import Mathlib

/-!
# DOM Chronicle — verification of the capture/redaction/export pipeline

Shallow embedding of the DOM Chronicle recording pipeline:

* the rule-based `RedactionEngine` (`src/lib/redaction/engine.ts`,
  `src/lib/redaction/patterns.ts`), including a backtracking matcher for
  the JavaScript regexes that the default rule set compiles;
* the content-script orchestrator `DOMChronicle` (`src/content.ts`):
  sequence assignment, buffering, flushing, start/stop;
* the capture layer (`src/lib/capture/*`): fragment capture, the
  micro-batching mutation observer, the debounced input path, the
  throttled scroll path, and `SemanticExtractor.getLabel`;
* the export layer (`src/lib/export/templates.ts` and the
  `MarkdownExporter` of `src/lib/export/markdown-exporter.ts`).

Machine integers do not overflow in any of the modelled code paths
(sequence counters and timestamps stay far below 2^53), so numbers are
embedded as `Nat`.
-/

namespace DOMC

/-! ## JavaScript string primitives

Embedded as character-list computations (`String.data`) so that every
definition evaluates inside the kernel. -/

/-- Split accumulator: `acc` holds the current piece reversed. -/
def jsSplitAux (sep : Char) : List Char → List Char → List String
  | [], acc => [⟨acc.reverse⟩]
  | c :: rest, acc =>
      if c = sep then ⟨acc.reverse⟩ :: jsSplitAux sep rest []
      else jsSplitAux sep rest (c :: acc)

/-- JS `s.split(sep)` for a one-character separator.  The empty string
splits to `[""]`. -/
def jsSplit (s : String) (sep : Char) : List String := jsSplitAux sep s.data []

/-- JS `s.trim()`. -/
def jsTrim (s : String) : String :=
  ⟨((s.data.dropWhile Char.isWhitespace).reverse.dropWhile Char.isWhitespace).reverse⟩

/-- JS `s.substring(0, n)` (and `s.substr(0, n)`): the first `n`
characters. -/
def jsTake (s : String) (n : Nat) : String := ⟨s.data.take n⟩

/-- JS `s.startsWith(p)`. -/
def jsStartsWith (s p : String) : Bool := p.data.isPrefixOf s.data

/-- JS `s.endsWith(p)`. -/
def jsEndsWith (s p : String) : Bool := p.data.isSuffixOf s.data

/-! ## JavaScript regular expressions

The redaction engine compiles its regex rules with `new RegExp(pattern,
'gi')` and applies them with `String.prototype.replace`.  We embed the
relevant fragment of JavaScript regex semantics: a backtracking matcher
over a syntax tree, producing candidate matches in JS preference order
(leftmost position, greedy quantifiers, left alternative first), plus
global replace-all. -/

/-- Regex syntax tree: character classes (as decidable predicates),
sequencing, prioritized alternation, greedy Kleene star, the empty regex
and the `\b` word-boundary assertion. -/
inductive Rx where
  | eps : Rx
  | cls : (Char → Bool) → Rx
  | seq : Rx → Rx → Rx
  | alt : Rx → Rx → Rx
  | star : Rx → Rx
  | wb : Rx

/-- Size measure used for termination of the matcher. -/
def Rx.size : Rx → Nat
  | .eps => 1
  | .cls _ => 1
  | .wb => 1
  | .seq a b => a.size + b.size + 1
  | .alt a b => a.size + b.size + 1
  | .star a => a.size + 1

/-- JS `\w`: ASCII letters, digits and underscore. -/
def isWordChar (c : Char) : Bool := c.isAlphanum || c = '_'

/-- JS `\b`: a word boundary between the previous character (none at the
start of the input) and the next character (none at the end). -/
def isWordBoundary (prev : Option Char) (s : List Char) : Bool :=
  let a := match prev with | some c => isWordChar c | none => false
  let b := match s with | c :: _ => isWordChar c | [] => false
  a != b

/-- Backtracking matcher.  `mrun fuel r prev s` returns every way `r` can
match a prefix of `s` as `(matched, newPrev, rest)`, ordered by JS
preference (greedy, left alternative first).  `prev` is the character
just before the current position, for `\b`.  Structural recursion on a
fuel that strictly decreases at every call so the kernel can evaluate it;
every star body that matches the empty string is discarded, as JS does
when it detects an empty quantifier iteration.  `firstMatch` supplies
fuel ample for the recursion depth, which is bounded by the pattern size
times the input length. -/
def mrun : Nat → Rx → Option Char → List Char →
    List (List Char × Option Char × List Char)
  | 0, _, _, _ => []
  | _ + 1, .eps, prev, s => [([], prev, s)]
  | _ + 1, .wb, prev, s => if isWordBoundary prev s then [([], prev, s)] else []
  | _ + 1, .cls p, _, s =>
      match s with
      | [] => []
      | c :: rest => if p c then [([c], some c, rest)] else []
  | fuel + 1, .seq a b, prev, s =>
      (mrun fuel a prev s).flatMap fun m1 =>
        (mrun fuel b m1.2.1 m1.2.2).map fun m2 => (m1.1 ++ m2.1, m2.2.1, m2.2.2)
  | fuel + 1, .alt a b, prev, s => mrun fuel a prev s ++ mrun fuel b prev s
  | fuel + 1, .star a, prev, s =>
      (((mrun fuel a prev s).filter fun m => !m.1.isEmpty).flatMap fun m1 =>
        (mrun fuel (.star a) m1.2.1 m1.2.2).map fun m2 =>
          (m1.1 ++ m2.1, m2.2.1, m2.2.2))
      ++ [([], prev, s)]

/-- Highest-priority match of `r` at the current position, if any. -/
def firstMatch (r : Rx) (prev : Option Char) (s : List Char) :
    Option (List Char × List Char) :=
  match mrun ((r.size + 1) * (s.length + 2)) r prev s with
  | [] => none
  | m :: _ => some (m.1, m.2.2)

/-- Global replace (`String.replace` with a `g` regex): scan left to
right, replace each leftmost match, continue after it; on an empty match
insert the replacement and advance one character. -/
def replaceAllAux (fuel : Nat) (r : Rx) (repl : List Char) (prev : Option Char)
    (s : List Char) : List Char :=
  match fuel with
  | 0 => s
  | fuel' + 1 =>
      match firstMatch r prev s with
      | some (m, rest) =>
          match m with
          | [] =>
              match s with
              | [] => repl
              | c :: rest' => repl ++ c :: replaceAllAux fuel' r repl (some c) rest'
          | _ => repl ++ replaceAllAux fuel' r repl m.getLast? rest
      | none =>
          match s with
          | [] => []
          | c :: rest' => c :: replaceAllAux fuel' r repl (some c) rest'

/-- Replace every match of `r` in `s` by `repl`. -/
def replaceAll (r : Rx) (repl : String) (s : String) : String :=
  ⟨replaceAllAux (s.length + 1) r repl.data none s.data⟩

/-! ### Combinators and the compiled default patterns -/

/-- A single literal character, case-insensitive (the engine compiles
with the `i` flag). -/
def chrI (c : Char) : Rx := .cls (fun x => x.toLower = c.toLower)

/-- `\d` -/
def digit : Rx := .cls Char.isDigit

/-- Greedy `r?`. -/
def rOpt (r : Rx) : Rx := .alt r .eps

/-- `r{n}`. -/
def repN : Nat → Rx → Rx
  | 0, _ => .eps
  | n + 1, r => .seq r (repN n r)

/-- Greedy `r+`. -/
def rPlus (r : Rx) : Rx := .seq r (.star r)

/-- Greedy `r{n,}`. -/
def atLeast (n : Nat) (r : Rx) : Rx := .seq (repN n r) (.star r)

/-- `[a-zA-Z0-9._%+-]` -/
def emailLocalChar (c : Char) : Bool :=
  c.isAlphanum || c = '.' || c = '_' || c = '%' || c = '+' || c = '-'

/-- `[a-zA-Z0-9.-]` -/
def emailDomainChar (c : Char) : Bool := c.isAlphanum || c = '.' || c = '-'

/-- Compiled form of the default email pattern
`[a-zA-Z0-9._%+-]+@[a-zA-Z0-9.-]+\.[a-zA-Z]{2,}`. -/
def emailRx : Rx :=
  .seq (rPlus (.cls emailLocalChar))
    (.seq (chrI '@')
      (.seq (rPlus (.cls emailDomainChar))
        (.seq (chrI '.') (atLeast 2 (.cls Char.isAlpha)))))

/-- `[-.\s]` -/
def sepChar (c : Char) : Bool := c = '-' || c = '.' || c.isWhitespace

/-- Compiled form of the default phone pattern
`(\+?1?[-.\s]?)?(\(?\d{3}\)?[-.\s]?)?\d{3}[-.\s]?\d{4}`. -/
def phoneRx : Rx :=
  .seq (rOpt (.seq (rOpt (chrI '+')) (.seq (rOpt (chrI '1')) (rOpt (.cls sepChar)))))
    (.seq (rOpt (.seq (rOpt (chrI '(')) (.seq (repN 3 digit)
            (.seq (rOpt (chrI ')')) (rOpt (.cls sepChar))))))
      (.seq (repN 3 digit) (.seq (rOpt (.cls sepChar)) (repN 4 digit))))

/-- Compiled form of the default SSN pattern `\b\d{3}-\d{2}-\d{4}\b`. -/
def ssnRx : Rx :=
  .seq .wb (.seq (repN 3 digit) (.seq (chrI '-') (.seq (repN 2 digit)
    (.seq (chrI '-') (.seq (repN 4 digit) .wb)))))

/-- `[- ]` -/
def cardSep (c : Char) : Bool := c = '-' || c = ' '

/-- Compiled form of the default credit-card pattern
`\b(?:\d{4}[- ]?){3}\d{4}\b`. -/
def cardRx : Rx :=
  .seq .wb (.seq (repN 3 (.seq (repN 4 digit) (rOpt (.cls cardSep))))
    (.seq (repN 4 digit) .wb))

/-- Modelled from the spec: the JavaScript `new RegExp(pattern, 'gi')`
compiler (a platform facility, not part of this repository's sources) on
the concrete pattern strings occurring in this development.  Pattern
strings outside this table behave exactly like invalid patterns: the
engine's `loadRules` catches the construction error and skips the rule,
so an unmodelled pattern and an invalid one are indistinguishable to the
embedded engine. -/
def compileRegex (pat : String) : Option Rx :=
  if pat = "[a-zA-Z0-9._%+-]+@[a-zA-Z0-9.-]+\\.[a-zA-Z]{2,}" then some emailRx
  else if pat = "(\\+?1?[-.\\s]?)?(\\(?\\d{3}\\)?[-.\\s]?)?\\d{3}[-.\\s]?\\d{4}" then
    some phoneRx
  else if pat = "\\b\\d{3}-\\d{2}-\\d{4}\\b" then some ssnRx
  else if pat = "\\b(?:\\d{4}[- ]?){3}\\d{4}\\b" then some cardRx
  else if pat = "a" then some (chrI 'a')
  else none

/-! ## Redaction rules (`src/lib/redaction/patterns.ts`) -/

/-- `RedactionRule.type` (`src/lib/types.ts`):
`'input-type' | 'regex' | 'selector' | 'attribute'`. -/
inductive RuleType where
  | inputType : RuleType
  | regex : RuleType
  | selector : RuleType
  | attribute : RuleType
deriving DecidableEq, BEq, Repr

/-- `RedactionRule` (`src/lib/types.ts`). -/
structure RedactionRule where
  id : String
  name : String
  type : RuleType
  pattern : String
  replacement : String
  enabled : Bool
deriving DecidableEq, Repr

/-- `DEFAULT_REDACTION_RULES` (`src/lib/redaction/patterns.ts`). -/
def DEFAULT_REDACTION_RULES : List RedactionRule :=
  [ ⟨"input-password", "Password fields", .inputType, "password", "[PASSWORD]", true⟩,
    ⟨"input-hidden", "Hidden inputs", .inputType, "hidden", "[HIDDEN]", true⟩,
    ⟨"regex-email", "Email addresses", .regex,
      "[a-zA-Z0-9._%+-]+@[a-zA-Z0-9.-]+\\.[a-zA-Z]{2,}", "[EMAIL]", true⟩,
    ⟨"regex-phone", "Phone numbers", .regex,
      "(\\+?1?[-.\\s]?)?(\\(?\\d{3}\\)?[-.\\s]?)?\\d{3}[-.\\s]?\\d{4}", "[PHONE]", true⟩,
    ⟨"regex-ssn", "Social Security Numbers", .regex,
      "\\b\\d{3}-\\d{2}-\\d{4}\\b", "[SSN]", true⟩,
    ⟨"regex-credit-card", "Credit card numbers", .regex,
      "\\b(?:\\d{4}[- ]?){3}\\d{4}\\b", "[CARD]", true⟩,
    ⟨"regex-ip-address", "IP addresses", .regex,
      "\\b(?:\\d{1,3}\\.){3}\\d{1,3}\\b", "[IP]", false⟩,
    ⟨"selector-cvv", "CVV fields", .selector,
      "input[name*=\"cvv\"], input[name*=\"cvc\"], input[autocomplete=\"cc-csc\"]",
      "[CVV]", true⟩,
    ⟨"attr-auth-token", "Auth tokens", .attribute,
      "data-token,data-auth,data-session,data-csrf", "[TOKEN]", true⟩ ]

/-! ## Data model (`src/lib/types.ts`) -/

/-- Optional bounding box of an `ElementDescriptor`. -/
structure BoundingRect where
  x : Int
  y : Int
  width : Int
  height : Int
deriving DecidableEq, Repr

/-- `ElementDescriptor` (`src/lib/types.ts`). -/
structure ElementDescriptor where
  tagName : String
  id : Option String
  classes : List String
  role : Option String
  label : Option String
  xpath : String
  cssSelector : String
  boundingRect : Option BoundingRect
deriving DecidableEq, Repr

/-- `EventType` (`src/lib/types.ts`): the string union of event type tags. -/
inductive EventType where
  | mutationAdd | mutationRemove | mutationAttribute | mutationText
  | userClick | userInput | userScroll | userNavigation | userFocus | userBlur
  | networkXhr | networkFetch | errorJs | errorConsole
deriving DecidableEq, BEq, Repr

/-- `DOMFragment` (`src/lib/types.ts`).  The attribute record is embedded
as an association list in key order. -/
structure DOMFragment where
  html : String
  text : String
  attributes : List (String × String)
deriving DecidableEq, Repr

/-- `MutationPayload.mutationType`. -/
inductive MutationKind where
  | childList | attributes | characterData
deriving DecidableEq, BEq, Repr

/-- `MutationPayload` (`src/lib/types.ts`). -/
structure MutationPayload where
  mutationType : MutationKind
  addedNodes : Option (List DOMFragment)
  removedNodes : Option (List DOMFragment)
  attributeName : Option String
  oldValue : Option String
  newValue : Option String
  parentHTMLBefore : Option String
  parentHTMLAfter : Option String
deriving DecidableEq, Repr

/-- `ClickPayload` (`src/lib/types.ts`), modifier flags inlined. -/
structure ClickPayload where
  button : Nat
  x : Int
  y : Int
  ctrl : Bool
  shift : Bool
  alt : Bool
  meta : Bool
deriving DecidableEq, Repr

/-- `InputPayload` (`src/lib/types.ts`). -/
structure InputPayload where
  inputType : String
  value : String
  selectionStart : Option Nat
  selectionEnd : Option Nat
deriving DecidableEq, Repr

/-- `ScrollPayload` (`src/lib/types.ts`). -/
structure ScrollPayload where
  scrollX : Int
  scrollY : Int
deriving DecidableEq, Repr

/-- `NavigationPayload.type`. -/
inductive NavType where
  | pushState | replaceState | popstate | hashchange | pageload
deriving DecidableEq, BEq, Repr

/-- `NavigationPayload` (`src/lib/types.ts`). -/
structure NavigationPayload where
  url : String
  type : NavType
  initialHTML : Option String
deriving DecidableEq, Repr

/-- `FocusPayload` (`src/lib/types.ts`). -/
structure FocusPayload where
  focused : Bool
deriving DecidableEq, Repr

/-- `EventPayload` (`src/lib/types.ts`): the discriminated union over the
`kind` field. -/
inductive EventPayload where
  | mutation : MutationPayload → EventPayload
  | click : ClickPayload → EventPayload
  | input : InputPayload → EventPayload
  | scroll : ScrollPayload → EventPayload
  | navigation : NavigationPayload → EventPayload
  | focus : FocusPayload → EventPayload
  | error : String → EventPayload
deriving DecidableEq, Repr

/-- `DOMEvent` (`src/lib/types.ts`).  Timestamps are millisecond counts. -/
structure DOMEvent where
  id : String
  sessionId : String
  timestamp : Nat
  sequence : Nat
  type : EventType
  target : ElementDescriptor
  payload : EventPayload
  domSnapshot : Option DOMFragment
deriving DecidableEq, Repr

/-! ## The redaction engine (`src/lib/redaction/engine.ts`) -/

/-- Engine state: the ordered rule list and the `compiledRegex` map from
rule id to compiled pattern (insertion-ordered, set overwrites). -/
structure RedactionEngine where
  rules : List RedactionRule
  compiledRegex : List (String × Rx)

/-- `Map.set`: overwrite the binding for `k` if present, else append. -/
def mapSet (m : List (String × Rx)) (k : String) (v : Rx) : List (String × Rx) :=
  match m with
  | [] => [(k, v)]
  | (k', v') :: rest => if k' = k then (k, v) :: rest else (k', v') :: mapSet rest k v

/-- `RedactionEngine.loadRules`: built-in defaults followed by custom
rules; every enabled regex rule is compiled once, and a pattern the
compiler rejects is skipped (logged in the source). -/
def loadRules (customRules : List RedactionRule) : RedactionEngine :=
  let rules := DEFAULT_REDACTION_RULES ++ customRules
  let compiled := rules.foldl
    (fun acc rule =>
      if rule.type == RuleType.regex && rule.enabled then
        match compileRegex rule.pattern with
        | some rx => mapSet acc rule.id rx
        | none => acc
      else acc)
    []
  ⟨rules, compiled⟩

/-- `RedactionEngine.redactText`: the regex cascade.  Every enabled regex
rule is applied in list order, each running on the output of the
previous one; rules without a compiled pattern are skipped. -/
def redactText (eng : RedactionEngine) (text : String) : String :=
  eng.rules.foldl
    (fun result rule =>
      if rule.enabled && rule.type == RuleType.regex then
        match eng.compiledRegex.lookup rule.id with
        | some rx => replaceAll rx rule.replacement result
        | none => result
      else result)
    text

/-- The comma-separated pattern list of a selector/attribute rule,
trimmed (`rule.pattern.split(',').map(p => p.trim())`). -/
def selectorPatternsOf (rule : RedactionRule) : List String :=
  (jsSplit rule.pattern ',').map jsTrim

/-- The attribute sub-pattern regex `\[(\w+)([*^$]?)="([^"]+)"\]`
attempted at one position of the selector pattern. -/
def tryAttrAt : List Char → Option (String × String × String)
  | '[' :: rest =>
      let w := rest.takeWhile isWordChar
      let rest1 := rest.dropWhile isWordChar
      if w.isEmpty then none else
      let opRest : List Char × List Char :=
        match rest1 with
        | c :: r => if c = '*' || c = '^' || c = '$' then ([c], r) else ([], rest1)
        | [] => ([], rest1)
      match opRest.2 with
      | '=' :: '"' :: rest3 =>
          let v := rest3.takeWhile (fun c => c ≠ '"')
          let rest4 := rest3.dropWhile (fun c => c ≠ '"')
          if v.isEmpty then none else
          match rest4 with
          | '"' :: ']' :: _ => some (⟨w⟩, ⟨opRest.1⟩, ⟨v⟩)
          | _ => none
      | _ => none
  | _ => none

/-- First (leftmost) match of the attribute sub-pattern regex inside a
selector pattern (`pattern.match(/\[(\w+)([*^$]?)="([^"]+)"\]/)`),
returning the three capture groups. -/
def findAttrPattern : List Char → Option (String × String × String)
  | [] => none
  | c :: rest =>
      match tryAttrAt (c :: rest) with
      | some r => some r
      | none => findAttrPattern rest

/-- JS `String.prototype.includes`. -/
def containsSubAux : List Char → List Char → Bool
  | _, [] => true
  | [], _ :: _ => false
  | c :: rest, n :: ns =>
      if (n :: ns).isPrefixOf (c :: rest) then true else containsSubAux rest (n :: ns)

/-- JS `haystack.includes(needle)`. -/
def strContains (hay needle : String) : Bool := containsSubAux hay.data needle.data

/-- `RedactionEngine.matchAttributeValue`: attribute operators
`*` (contains), `^` (starts-with), `$` (ends-with), default exact. -/
def matchAttributeValue (actual op expected : String) : Bool :=
  if op = "*" then strContains actual expected
  else if op = "^" then jsStartsWith actual expected
  else if op = "$" then jsEndsWith actual expected
  else actual == expected

/-- `RedactionEngine.matchesSelectorPattern`: tag-name prefix check, then
the first attribute sub-pattern is matched against the descriptor's id,
or searched for inside its CSS selector for `autocomplete`/`name`. -/
def matchesSelectorPattern (target : ElementDescriptor) (pat : String) : Bool :=
  if jsStartsWith pat target.tagName then
    match findAttrPattern pat.data with
    | some (attr, op, value) =>
        if attr = "id" then
          match target.id with
          | some tid => if tid ≠ "" then matchAttributeValue tid op value else false
          | none => false
        else if attr = "autocomplete" && strContains target.cssSelector value then true
        else if attr = "name" && strContains target.cssSelector value then true
        else false
    | none => false
  else false

/-- Loop body of `RedactionEngine.shouldRedactInputType`: first enabled
rule that matches by input type, or by one of its selector patterns
(selector rules are consulted only when the descriptor's CSS selector is
non-empty, mirroring the `target.cssSelector` truthiness check). -/
def shouldRedactAux (target : ElementDescriptor) (inputTy : String) :
    List RedactionRule → Bool
  | [] => false
  | rule :: rest =>
      if !rule.enabled then shouldRedactAux target inputTy rest
      else if rule.type == RuleType.inputType && rule.pattern == inputTy then true
      else if rule.type == RuleType.selector && target.cssSelector ≠ "" then
        if (selectorPatternsOf rule).any (fun p => matchesSelectorPattern target p) then
          true
        else shouldRedactAux target inputTy rest
      else shouldRedactAux target inputTy rest

/-- `RedactionEngine.shouldRedactInputType`. -/
def shouldRedactInputType (eng : RedactionEngine) (target : ElementDescriptor)
    (inputTy : String) : Bool :=
  shouldRedactAux target inputTy eng.rules

/-- Loop body of `RedactionEngine.getReplacementForInputType`: replacement
of the first enabled matching rule, `[REDACTED]` if none matches.  Unlike
`shouldRedactInputType` this loop has no CSS-selector truthiness guard on
selector rules, mirroring the source. -/
def getReplacementAux (target : ElementDescriptor) (inputTy : String) :
    List RedactionRule → String
  | [] => "[REDACTED]"
  | rule :: rest =>
      if !rule.enabled then getReplacementAux target inputTy rest
      else if rule.type == RuleType.inputType && rule.pattern == inputTy then
        rule.replacement
      else if rule.type == RuleType.selector then
        if (selectorPatternsOf rule).any (fun p => matchesSelectorPattern target p) then
          rule.replacement
        else getReplacementAux target inputTy rest
      else getReplacementAux target inputTy rest

/-- `RedactionEngine.getReplacementForInputType`. -/
def getReplacementForInputType (eng : RedactionEngine) (target : ElementDescriptor)
    (inputTy : String) : String :=
  getReplacementAux target inputTy eng.rules

/-- First enabled attribute rule whose comma-separated pattern list
contains the attribute name. -/
def findAttributeRule (eng : RedactionEngine) (key : String) : Option RedactionRule :=
  eng.rules.find? (fun rule =>
    rule.enabled && rule.type == RuleType.attribute &&
      (selectorPatternsOf rule).contains key)

/-- `RedactionEngine.redactAttributes`: attribute-name rules replace the
whole value; other values go through the regex cascade. -/
def redactAttributes (eng : RedactionEngine) (attrs : List (String × String)) :
    List (String × String) :=
  attrs.map (fun kv =>
    match findAttributeRule eng kv.1 with
    | some rule => (kv.1, rule.replacement)
    | none => (kv.1, redactText eng kv.2))

/-- `RedactionEngine.process`: returns a new event; redacts the target
label (when present and non-empty — JS truthiness), the input value (full
replacement when an input-type/selector rule matches, else the regex
cascade) and the DOM snapshot. -/
def process (eng : RedactionEngine) (event : DOMEvent) : DOMEvent :=
  let redacted := event
  let redacted :=
    match event.target.label with
    | some l =>
        if l ≠ "" then
          { redacted with target := { redacted.target with label := some (redactText eng l) } }
        else redacted
    | none => redacted
  let redacted :=
    if event.type == EventType.userInput then
      match event.payload with
      | .input ip =>
          if shouldRedactInputType eng event.target ip.inputType then
            let v := getReplacementForInputType eng event.target ip.inputType
            { redacted with payload := EventPayload.input { ip with value := v } }
          else
            { redacted with payload := EventPayload.input { ip with value := redactText eng ip.value } }
      | _ => redacted
    else redacted
  match redacted.domSnapshot with
  | some snap =>
      let fr : DOMFragment :=
        ⟨redactText eng snap.html, redactText eng snap.text,
         redactAttributes eng snap.attributes⟩
      { redacted with domSnapshot := some fr }
  | none => redacted

/-- The effect of `process` on the target label, as a function (for the
structural characterization `process_eq` below): a present non-empty
label goes through the regex cascade, everything else is untouched. -/
def processLabel (eng : RedactionEngine) : Option String → Option String
  | some l => if l ≠ "" then some (redactText eng l) else some l
  | none => none

/-- The effect of `process` on the payload, as a function of the event
type, the (original) target and the payload. -/
def processPayload (eng : RedactionEngine) (ty : EventType)
    (target : ElementDescriptor) : EventPayload → EventPayload := fun pl =>
  if ty == EventType.userInput then
    match pl with
    | .input ip =>
        if shouldRedactInputType eng target ip.inputType then
          EventPayload.input { ip with value := getReplacementForInputType eng target ip.inputType }
        else EventPayload.input { ip with value := redactText eng ip.value }
    | p => p
  else pl

/-- The effect of `process` on the DOM snapshot, as a function. -/
def processSnap (eng : RedactionEngine) : Option DOMFragment → Option DOMFragment
  | some snap =>
      some ⟨redactText eng snap.html, redactText eng snap.text,
            redactAttributes eng snap.attributes⟩
  | none => none

/-! ## Limits (`src/lib/utils/constants.ts`) and the sanitizer config -/

def MAX_EVENTS_IN_MEMORY : Nat := 500

def MAX_EVENTS_PER_SESSION : Nat := 50000

def MAX_DOM_FRAGMENT_SIZE : Nat := 2000

/-- `SANITIZE_CONFIG.FORBID_TAGS` (`src/lib/redaction/sanitizer.ts`): tags
the HTML sanitizer must remove.  The sanitizer itself delegates to the
vendored DOMPurify; only its configuration is needed here, to state what
sanitized output may not contain. -/
def SANITIZE_FORBID_TAGS : List String :=
  ["script", "style", "iframe", "object", "embed", "link", "meta"]

/-! ## Fragment capture (`src/lib/capture/semantic-extractor.ts`) -/

/-- The DOM element data that `SemanticExtractor.captureFragment` reads:
serialized outer HTML, text content and the attribute list. -/
structure ElemNode where
  outerHTML : String
  textContent : String
  attrs : List (String × String)
deriving DecidableEq, Repr

/-- `SemanticExtractor.captureFragment` on an `Element` argument: raw
outer HTML cut to `maxLength`, trimmed text cut to 500 characters, and
the attribute map.  (A null argument returns `undefined` and a text node
takes a separate branch in the source; neither occurs in the modelled
paths.)  Note that, despite the comment in the source ("Clone and
sanitize will be done by redaction engine"), no sanitizer runs here. -/
def captureFragment (el : ElemNode) (maxLength : Nat) : DOMFragment :=
  ⟨jsTake el.outerHTML maxLength, jsTake (jsTrim el.textContent) 500, el.attrs⟩

/-- `EventCapture.emit` for a `user:click` event: the only event kind for
which the interaction capturer attaches a `domSnapshot`
(`src/lib/capture/event-listener.ts`). -/
def emitClick (eventId sessionId : String) (ts seq : Nat) (el : ElemNode)
    (desc : ElementDescriptor) (p : ClickPayload) : DOMEvent :=
  ⟨eventId, sessionId, ts, seq, .userClick, desc, .click p,
    some (captureFragment el MAX_DOM_FRAGMENT_SIZE)⟩

/-! ## The orchestrator (`src/content.ts`, class `DOMChronicle`) -/

/-- Orchestrator state.  `flushed` is the sequence of events delivered to
the persistence boundary (the `STORE_EVENTS` messages, in order) for the
current session; `maxInitialHTMLSize` is
`config.exportConfig.maxInitialHTMLSize`. -/
structure ChronState where
  isRecording : Bool
  sequence : Nat
  eventBuffer : List DOMEvent
  flushed : List DOMEvent
  engine : RedactionEngine
  maxInitialHTMLSize : Nat
  sessionId : String

/-- `DOMChronicle.flushBuffer`, success path: the buffer is spliced out
and appended to the persisted log.  (On a transport failure the source
re-prepends the splice for retry; the claims below concern the success
path.) -/
def flushBuffer (st : ChronState) : ChronState :=
  if st.eventBuffer.isEmpty then st
  else { st with eventBuffer := [], flushed := st.flushed ++ st.eventBuffer }

/-- The orchestrator-state part of `DOMChronicle.stop`: clear the
recording flag, stop the flush interval and perform the final flush.
(The capturer interactions of `stop` are modelled on `SysState`.) -/
def stopChron (st : ChronState) : ChronState :=
  if !st.isRecording then st
  else flushBuffer { st with isRecording := false }

/-- `DOMChronicle.handleEvent` (with `checkRateLimit` inlined): events
arriving while not recording are dropped; at the session event ceiling
the recording is stopped and the event dropped; otherwise the event is
redacted, given the next sequence number, buffered, and a full buffer is
flushed immediately. -/
def handleEvent (st : ChronState) (event : DOMEvent) : ChronState :=
  if !st.isRecording then st
  else if MAX_EVENTS_PER_SESSION ≤ st.sequence then stopChron st
  else
    let red := process st.engine event
    let red := { red with sequence := st.sequence }
    let st := { st with sequence := st.sequence + 1,
                        eventBuffer := st.eventBuffer ++ [red] }
    if MAX_EVENTS_IN_MEMORY ≤ st.eventBuffer.length then flushBuffer st else st

/-- `DOMChronicle.captureInitialState`: the synthetic `user:navigation`
page-load event carrying the full page HTML (truncated only above
`maxInitialHTMLSize`), pushed *directly* onto the event buffer — with a
sequence number from the shared counter but without a
`redactionEngine.process` call. -/
def captureInitialState (st : ChronState) (eventId : String) (ts : Nat)
    (url pageHTML : String) : ChronState :=
  let initialHTML :=
    if 0 < st.maxInitialHTMLSize ∧ st.maxInitialHTMLSize < pageHTML.length then
      jsTake pageHTML st.maxInitialHTMLSize ++ "\n<!-- TRUNCATED -->"
    else pageHTML
  let event : DOMEvent :=
    ⟨eventId, st.sessionId, ts, st.sequence, .userNavigation,
      ⟨"document", none, [], none, none, "/", ":root", none⟩,
      .navigation ⟨url, .pageload, some initialHTML⟩, none⟩
  { st with sequence := st.sequence + 1, eventBuffer := st.eventBuffer ++ [event] }

/-- `DOMChronicle.start`: reset the counter and buffer, load the redaction
rules, start the capturers and flush interval, then capture the initial
page state. -/
def startChron (sessionId : String) (customRules : List RedactionRule)
    (maxInitialHTMLSize : Nat) (eventId : String) (ts : Nat)
    (url pageHTML : String) : ChronState :=
  let st : ChronState :=
    ⟨true, 0, [], [], loadRules customRules, maxInitialHTMLSize, sessionId⟩
  captureInitialState st eventId ts url pageHTML

/-- Orchestrator operations after `start`: an event delivered by a
capturer, a flush-interval tick, and `stop`. -/
inductive ChronOp where
  | handle : DOMEvent → ChronOp
  | flushTick : ChronOp
  | stopOp : ChronOp

/-- Apply one operation. -/
def applyOp (st : ChronState) : ChronOp → ChronState
  | .handle e => handleEvent st e
  | .flushTick => flushBuffer st
  | .stopOp => stopChron st

/-- Run a list of operations. -/
def runOps (st : ChronState) (ops : List ChronOp) : ChronState :=
  ops.foldl applyOp st

/-- All events of the session in acceptance order: those already flushed
to the persistence boundary followed by those still buffered. -/
def sessionEvents (st : ChronState) : List DOMEvent :=
  st.flushed ++ st.eventBuffer

/-! ## Capture-layer system state (`src/lib/capture/mutation-observer.ts`,
`src/lib/capture/event-listener.ts`, `src/lib/utils/debounce.ts`)

The composed system: the orchestrator plus the mutation capturer's
micro-batch (`batchBuffer`/`batchTimeout`) and the interaction capturer's
debounced input path (`debounce` keeps only the latest pending call). -/

structure SysState where
  chron : ChronState
  batchBuffer : List DOMEvent
  batchTimerPending : Bool
  pendingDebounce : Option DOMEvent
  listenersActive : Bool

/-- A batch of mutation notifications delivered by the observer
(`MutationCapture.batchMutations`): the converted events are appended to
the micro-batch and the 50ms flush timer is started if not pending.
(The per-notification "before"-state capture happens here synchronously
in the source; the resulting event is the argument.) -/
def sysBatchMutation (s : SysState) (e : DOMEvent) : SysState :=
  { s with batchBuffer := s.batchBuffer ++ [e], batchTimerPending := true }

/-- The micro-batch timer fires (`MutationCapture.processBatch`): the
batch drains in arrival order into the orchestrator's `handleEvent`. -/
def sysBatchTimerFire (s : SysState) : SysState :=
  { s with chron := s.batchBuffer.foldl handleEvent s.chron,
           batchBuffer := [], batchTimerPending := false }

/-- An `input` notification while the page listeners are attached: the
debounced wrapper replaces any pending call with this one
(`debounce` in `src/lib/utils/debounce.ts` clears the previous timer;
last write wins). -/
def sysInput (s : SysState) (e : DOMEvent) : SysState :=
  if s.listenersActive then { s with pendingDebounce := some e } else s

/-- The debounce timer fires: the pending input event (if any) is
delivered to the orchestrator.  Note that removing the page listeners
does not cancel this timer, so it also fires after
`EventCapture.stop`. -/
def sysDebounceFire (s : SysState) : SysState :=
  match s.pendingDebounce with
  | some e => { s with chron := handleEvent s.chron e, pendingDebounce := none }
  | none => s

/-- `DOMChronicle.stop`, composed with the capturers, in source order:
1. the recording flag is cleared *first*;
2. `MutationCapture.stop` clears the batch timer and synchronously drains
   the remaining batch into `handleEvent`;
3. `EventCapture.stop` removes the page listeners (the pending debounce
   timer is left untouched);
4. the flush interval is stopped and a final `flushBuffer` runs. -/
def sysStop (s : SysState) : SysState :=
  if !s.chron.isRecording then s
  else
    let c := { s.chron with isRecording := false }
    let drained := if s.batchTimerPending then s.batchBuffer.foldl handleEvent c else c
    { chron := flushBuffer drained,
      batchBuffer := if s.batchTimerPending then [] else s.batchBuffer,
      batchTimerPending := false,
      pendingDebounce := s.pendingDebounce,
      listenersActive := false }

/-- System start: orchestrator start with idle capturers. -/
def sysStart (sessionId : String) (customRules : List RedactionRule)
    (maxInitialHTMLSize : Nat) (eventId : String) (ts : Nat)
    (url pageHTML : String) : SysState :=
  ⟨startChron sessionId customRules maxInitialHTMLSize eventId ts url pageHTML,
    [], false, none, true⟩

/-! ## Markdown templates (`src/lib/export/templates.ts`) -/

/-- `escapeMarkdown`: the characters the regex `([*_`\[\]()#>])` escapes. -/
def isMarkdownEscapeChar (c : Char) : Bool :=
  c = '*' || c = '_' || c = '`' || c = '[' || c = ']' ||
  c = '(' || c = ')' || c = '#' || c = '>'

/-- `escapeMarkdown(text)`: prefix a backslash before each special
character. -/
def escapeMarkdown (text : String) : String :=
  ⟨text.data.flatMap (fun c => if isMarkdownEscapeChar c then ['\\', c] else [c])⟩

/-- `truncate(text, maxLength)`. -/
def truncate (text : String) (maxLength : Nat) : String :=
  if text.length ≤ maxLength then text else jsTake text (maxLength - 3) ++ "..."

/-- `formatUnifiedDiff(before, after)`: a line-set difference — every
before-line absent from the after-lines with a `- ` prefix (in original
order), then every after-line absent from the before-lines with a `+ `
prefix (in original order). -/
def formatUnifiedDiff (before after : String) : String :=
  let beforeLines := jsSplit before '\n'
  let afterLines := jsSplit after '\n'
  let removed := (beforeLines.filter (fun line => !afterLines.contains line)).map
    (fun line => "- " ++ line)
  let added := (afterLines.filter (fun line => !beforeLines.contains line)).map
    (fun line => "+ " ++ line)
  String.intercalate "\n" (removed ++ added)

/-- `formatAddedDiff(html)`: every line prefixed with `+ `. -/
def formatAddedDiff (html : String) : String :=
  String.intercalate "\n" ((jsSplit html '\n').map (fun line => "+ " ++ line))

/-- `formatRemovedDiff(html)`: every line prefixed with `- `. -/
def formatRemovedDiff (html : String) : String :=
  String.intercalate "\n" ((jsSplit html '\n').map (fun line => "- " ++ line))

/-- `formatAttributeDiff(name, oldVal, newVal)`. -/
def formatAttributeDiff (name oldVal newVal : String) : String :=
  "- " ++ name ++ "=\"" ++ oldVal ++ "\"\n+ " ++ name ++ "=\"" ++ newVal ++ "\""

/-! ## The Markdown exporter (`src/lib/export/markdown-exporter.ts`,
class `MarkdownExporter`) — the event description and diff rendering -/

/-- The target-label part of `MarkdownExporter.describeEvent`:
`**"label"**` (escaped, truncated to 50) when a label is present and
non-empty, else `**tagName**`. -/
def describeTargetLabel (target : ElementDescriptor) : String :=
  match target.label with
  | some l =>
      if l ≠ "" then "**\"" ++ escapeMarkdown (truncate l 50) ++ "\"**"
      else "**" ++ target.tagName ++ "**"
  | none => "**" ++ target.tagName ++ "**"

/-- The selector part of `describeEvent`: `` (`cssSelector`) ``. -/
def describeSelector (target : ElementDescriptor) : String :=
  "(`" ++ target.cssSelector ++ "`)"

/-- `MarkdownExporter.renderMutationDiff`: a unified diff of the parent
before/after HTML when both are present (and the diff is non-empty),
else the added/removed fragments each rendered with `+ `/`- ` prefixes,
truncated to `maxLen` (= `options.maxDOMFragmentLength`); `none` when
there is nothing to show.  (The source also reads
`exportConfig.diffMode` but never uses it.) -/
def renderMutationDiff (maxLen : Nat) (payload : MutationPayload) (isAdd : Bool) :
    Option String :=
  let parentDiff : Option String :=
    match payload.parentHTMLBefore, payload.parentHTMLAfter with
    | some b, some a =>
        if b ≠ "" && a ≠ "" then
          let d := formatUnifiedDiff b a
          if d ≠ "" then some ("```diff\n" ++ d ++ "\n```") else none
        else none
    | _, _ => none
  match parentDiff with
  | some r => some r
  | none =>
      if isAdd then
        match payload.addedNodes with
        | some (n :: ns) =>
            let diffLines := String.intercalate "\n"
              (((n :: ns).map (fun fr => formatAddedDiff (truncate fr.html maxLen))))
            some ("```diff\n" ++ diffLines ++ "\n```")
        | _ => none
      else
        match payload.removedNodes with
        | some (n :: ns) =>
            let diffLines := String.intercalate "\n"
              (((n :: ns).map (fun fr => formatRemovedDiff (truncate fr.html maxLen))))
            some ("```diff\n" ++ diffLines ++ "\n```")
        | _ => none

/-- The `EventType` tag as its source string literal. -/
def eventTypeStr : EventType → String
  | .mutationAdd => "mutation:add"
  | .mutationRemove => "mutation:remove"
  | .mutationAttribute => "mutation:attribute"
  | .mutationText => "mutation:text"
  | .userClick => "user:click"
  | .userInput => "user:input"
  | .userScroll => "user:scroll"
  | .userNavigation => "user:navigation"
  | .userFocus => "user:focus"
  | .userBlur => "user:blur"
  | .networkXhr => "network:xhr"
  | .networkFetch => "network:fetch"
  | .errorJs => "error:js"
  | .errorConsole => "error:console"

/-- The `NavigationPayload.type` tag as its source string literal. -/
def navTypeStr : NavType → String
  | .pushState => "pushState"
  | .replaceState => "replaceState"
  | .popstate => "popstate"
  | .hashchange => "hashchange"
  | .pageload => "pageload"

/-- `MarkdownExporter.describeEvent`: the per-type natural-language
description.  `maxLen` is `options.maxDOMFragmentLength`.  Branches whose
payload constructor does not match the event type cannot arise from the
capture pipeline and fall to the generic default line. -/
def describeEvent (maxLen : Nat) (event : DOMEvent) : String :=
  let targetLabel := describeTargetLabel event.target
  let selector := describeSelector event.target
  let fallback := "Event: " ++ eventTypeStr event.type
  match event.type, event.payload with
  | .userClick, .click p =>
      let desc := "User clicked " ++ targetLabel ++ " " ++ selector
      if p.ctrl || p.shift || p.alt || p.meta then
        let mods := (if p.ctrl then ["Ctrl"] else []) ++ (if p.shift then ["Shift"] else [])
          ++ (if p.alt then ["Alt"] else []) ++ (if p.meta then ["Meta"] else [])
        desc ++ " with " ++ String.intercalate "+" mods
      else desc
  | .userInput, .input p =>
      let fieldName := match event.target.label with
        | some l => if l ≠ "" then l else "input field"
        | none => "input field"
      let desc := "User typed in **\"" ++ escapeMarkdown fieldName ++ "\"** " ++ selector
      let isRedacted := jsStartsWith p.value "[" && jsEndsWith p.value "]"
      if isRedacted then
        desc ++ "\n\n**Value:** `" ++ p.value ++ "` *(redacted)*"
      else if p.value ≠ "" then
        desc ++ "\n\n**Value:** `" ++ escapeMarkdown (truncate p.value 100) ++ "`"
      else desc
  | .userFocus, .focus p =>
      "User " ++ (if p.focused then "focused on" else "left") ++ " " ++ targetLabel
        ++ " " ++ selector
  | .userBlur, .focus p =>
      "User " ++ (if p.focused then "focused on" else "left") ++ " " ++ targetLabel
        ++ " " ++ selector
  | .userScroll, .scroll p =>
      "Scrolled to position (" ++ toString p.scrollX ++ ", " ++ toString p.scrollY ++ ")"
  | .userNavigation, .navigation p =>
      "Navigated to: `" ++ p.url ++ "` (" ++ navTypeStr p.type ++ ")"
  | .mutationAdd, .mutation p =>
      let count := match p.addedNodes with | some l => l.length | none => 0
      let desc := toString count ++ " element" ++ (if count ≠ 1 then "s" else "")
        ++ " added to " ++ selector
      match renderMutationDiff maxLen p true with
      | some d => desc ++ "\n\n" ++ d
      | none => desc
  | .mutationRemove, .mutation p =>
      let count := match p.removedNodes with | some l => l.length | none => 0
      let desc := toString count ++ " element" ++ (if count ≠ 1 then "s" else "")
        ++ " removed from " ++ selector
      match renderMutationDiff maxLen p false with
      | some d => desc ++ "\n\n" ++ d
      | none => desc
  | .mutationAttribute, .mutation p =>
      let nameStr := match p.attributeName with | some n => n | none => "undefined"
      let diffContent := formatAttributeDiff
        (match p.attributeName with | some n => if n ≠ "" then n else "unknown" | none => "unknown")
        (match p.oldValue with | some v => v | none => "")
        (match p.newValue with | some v => v | none => "")
      "Attribute `" ++ nameStr ++ "` changed on " ++ targetLabel
        ++ "\n\n```diff\n" ++ diffContent ++ "\n```"
  | .mutationText, .mutation p =>
      let diffContent := formatUnifiedDiff
        (match p.oldValue with | some v => v | none => "")
        (match p.newValue with | some v => v | none => "")
      "Text content changed in " ++ targetLabel ++ "\n\n```diff\n" ++ diffContent ++ "\n```"
  | _, _ => fallback

/-! ## The throttle combinator (`src/lib/utils/debounce.ts`) composed
with the scroll handler (`src/lib/capture/event-listener.ts`)

`throttle(fn, wait)` keeps `lastCall` and at most one pending timeout.  A
call with `wait ≤ now - lastCall` clears any pending timeout and invokes
`fn` immediately; otherwise, if no timeout is pending, `fn` is scheduled
for `now + (wait - (now - lastCall)) = lastCall + wait` with the *current*
arguments; otherwise the call is dropped.  The scroll handler ignores its
event argument and reads `window.scrollX/scrollY` when it executes, so a
deferred invocation reads the scroll position current at its fire time.

The world is advanced by a timeline of scroll notifications `(t, pos)`
with strictly increasing times; at each notification the browser first
runs any timer due at or before `t` (a timer due exactly at `t` is
superseded by the immediate branch, which clears it), then updates the
scroll position, then runs the throttled handler. -/

/-- State of the throttled scroll pipeline. -/
structure ThrottleState where
  wait : Nat
  lastCall : Nat
  pendingFire : Option (Nat × (Int × Int))
  scrollPos : Int × Int
  emissions : List (Nat × (Int × Int))

/-- The pending timeout fires: `fn(...args)` runs, but the emitted payload
reads the current scroll position, not the captured (stale) arguments. -/
def firePending (st : ThrottleState) : ThrottleState :=
  match st.pendingFire with
  | some (ft, _stale) =>
      { st with lastCall := ft, pendingFire := none,
                emissions := st.emissions ++ [(ft, st.scrollPos)] }
  | none => st

/-- The throttled wrapper invoked at time `t` with argument position
`argPos` (captured for a possible deferred call). -/
def throttledCall (st : ThrottleState) (t : Nat) (argPos : Int × Int) : ThrottleState :=
  if st.wait ≤ t - st.lastCall then
    { st with pendingFire := none, lastCall := t,
              emissions := st.emissions ++ [(t, st.scrollPos)] }
  else
    match st.pendingFire with
    | none => { st with pendingFire := some (st.lastCall + st.wait, argPos) }
    | some _ => st

/-- Process one scroll notification. -/
def stepNotif (st : ThrottleState) (n : Nat × (Int × Int)) : ThrottleState :=
  let st :=
    match st.pendingFire with
    | some (ft, _) => if ft < n.1 then firePending st else st
    | none => st
  let st := { st with scrollPos := n.2 }
  throttledCall st n.1 n.2

/-- Initial throttle state: `lastCall = 0`, no pending timeout. -/
def throttleInit (wait : Nat) : ThrottleState := ⟨wait, 0, none, (0, 0), []⟩

/-- Run the timeline, then let any remaining timer fire. -/
def runThrottle (wait : Nat) (notifs : List (Nat × (Int × Int))) : ThrottleState :=
  firePending (notifs.foldl stepNotif (throttleInit wait))

/-- The scroll position current at time `t`: the position of the last
notification at or before `t` (the page starts at the origin). -/
def posAt (notifs : List (Nat × (Int × Int))) (t : Nat) : Int × Int :=
  match (notifs.filter (fun n => n.1 ≤ t)).getLast? with
  | some n => n.2
  | none => (0, 0)

/-! ## `SemanticExtractor.getLabel`
(`src/lib/capture/semantic-extractor.ts`) -/

/-- The element data `getLabel` reads.  Attribute getters return `none`
when the attribute is absent; `ariaLabelledByText` is the text content of
the element referenced by `aria-labelledby` (`none` when the attribute is
absent or, as in the source's optional chain, when the reference
dangles); `associatedLabel` is the result of `findAssociatedLabel`. -/
structure LabelSourceElem where
  ariaLabel : Option String
  ariaLabelledByText : Option String
  title : Option String
  alt : Option String
  placeholder : Option String
  associatedLabel : Option String
  textContent : String
deriving DecidableEq, Repr

/-- The last label source: `text && text.length <= 50 ? text :
text?.substring(0, 47) + '...'` on the trimmed text content.  The empty
string is falsy, so it takes the second branch and becomes `'' + '...'`. -/
def labelFromText (textContent : String) : String :=
  let text := jsTrim textContent
  if text ≠ "" ∧ text.length ≤ 50 then text else jsTake text 47 ++ "..."

/-- `SemanticExtractor.getLabel`: the priority chain of label sources;
the first whose trimmed value is non-empty wins (returned trimmed);
`none` when every source fails. -/
def getLabel (el : LabelSourceElem) : Option String :=
  let sources : List (Option String) :=
    [el.ariaLabel, el.ariaLabelledByText, el.title, el.alt, el.placeholder,
     el.associatedLabel, some (labelFromText el.textContent)]
  sources.findSome? (fun src =>
    match src with
    | some l => if jsTrim l ≠ "" then some (jsTrim l) else none
    | none => none)

/-! # Theorems -/

/-! ## Helper lemmas -/

/-- Filtering a list by non-membership in itself removes everything. -/
theorem filter_not_contains_self (l : List String) :
    l.filter (fun line => !l.contains line) = [] := by
  rw [List.filter_eq_nil_iff]
  intro a ha
  simpa using ha

set_option maxHeartbeats 1600000 in
/-- `process` characterized field by field. -/
theorem process_eq (eng : RedactionEngine) (e : DOMEvent) :
    process eng e =
      ⟨e.id, e.sessionId, e.timestamp, e.sequence, e.type,
        { e.target with label := processLabel eng e.target.label },
        processPayload eng e.type e.target e.payload,
        processSnap eng e.domSnapshot⟩ := by
  obtain ⟨i, sid, ts, sq, ty, tgt, pl, ds⟩ := e
  obtain ⟨tn, tid, tcl, trl, tlb, txp, tcss, tbr⟩ := tgt
  unfold process processLabel processPayload processSnap
  generalize (ty == EventType.userInput) = b
  cases b <;> cases tlb <;> cases ds <;> cases pl <;> (try dsimp only) <;>
    (try split_ifs) <;> rfl

/-- `matchesSelectorPattern` reads only the tag name, id and CSS selector
of the descriptor. -/
theorem matchesSelectorPattern_fields (t1 t2 : ElementDescriptor)
    (h1 : t1.tagName = t2.tagName) (h2 : t1.id = t2.id)
    (h3 : t1.cssSelector = t2.cssSelector) (p : String) :
    matchesSelectorPattern t1 p = matchesSelectorPattern t2 p := by
  unfold matchesSelectorPattern
  rw [h1, h2, h3]

/-- The `shouldRedactInputType` loop reads only the tag name, id and CSS
selector of the descriptor. -/
theorem shouldRedactAux_fields (t1 t2 : ElementDescriptor)
    (h1 : t1.tagName = t2.tagName) (h2 : t1.id = t2.id)
    (h3 : t1.cssSelector = t2.cssSelector)
    (it : String) (rules : List RedactionRule) :
    shouldRedactAux t1 it rules = shouldRedactAux t2 it rules := by
  induction rules with
  | nil => rfl
  | cons r rest ih =>
      unfold shouldRedactAux
      rw [h3]
      simp only [matchesSelectorPattern_fields t1 t2 h1 h2 h3, ih]

/-- The `getReplacementForInputType` loop reads only the tag name, id and
CSS selector of the descriptor. -/
theorem getReplacementAux_fields (t1 t2 : ElementDescriptor)
    (h1 : t1.tagName = t2.tagName) (h2 : t1.id = t2.id)
    (h3 : t1.cssSelector = t2.cssSelector)
    (it : String) (rules : List RedactionRule) :
    getReplacementAux t1 it rules = getReplacementAux t2 it rules := by
  induction rules with
  | nil => rfl
  | cons r rest ih =>
      unfold getReplacementAux
      simp only [matchesSelectorPattern_fields t1 t2 h1 h2 h3, ih]

/-! ## Claim C5 — the diff laws -/

/-- Claim C5, counterexample: `formatUnifiedDiff("", "x")` is not made of
`+`-prefixed lines only — the empty before-text contributes the single
empty line that `''.split('\n')` produces, which is absent from `"x"`'s
lines and is therefore emitted as the `-`-prefixed line `"- "`. -/
theorem c5_counterexample :
    formatUnifiedDiff "" "x" = "- \n+ x" ∧
    (jsSplit (formatUnifiedDiff "" "x") '\n').head? = some "- " ∧
    ¬ ∃ rest, ("- " : String) = "+ " ++ rest := by
  refine ⟨by decide, by decide, ?_⟩
  rintro ⟨rest, h⟩
  have h2 : ("- " : String).data.take 2 = ("+ " : String).data := by
    rw [congrArg String.data h, String.data_append]
    exact List.take_left' (by decide)
  exact absurd h2 (by decide)

/-- Claim C5 (amended): `formatUnifiedDiff(a, a) = ""` for every text
`a`; and `formatUnifiedDiff("", b)` consists of the single line `"- "`
(for the one empty line of `"".split('\n')`) whenever `b` has no empty
line — and no `-` line otherwise — followed by `+`-prefixed copies of
exactly the non-empty lines of `b`, in original order (empty lines of
`b` are omitted, because they match the empty before-line). -/
theorem diff_lines_empty_before (bl : List String) :
    ((([""] : List String).filter (fun line => !bl.contains line)).map
        (fun line => "- " ++ line) ++
      (bl.filter (fun line => !(([""] : List String).contains line))).map
        (fun line => "+ " ++ line))
    = (if bl.contains "" then [] else ["- "]) ++
        (bl.filter (fun l => l != "")).map (fun l => "+ " ++ l) := by
  rw [List.filter_singleton]
  have hadded : bl.filter (fun line => !(([""] : List String).contains line))
      = bl.filter (fun l => l != "") := by
    apply List.filter_congr
    intro l _
    show (!(List.elem l [""])) = (l != "")
    cases h : l == "" <;> simp [List.elem, h, bne]
  rw [hadded]
  cases hc : bl.contains "" <;> simp [hc]

/-- Claim C5 (amended): `formatUnifiedDiff(a, a) = ""` for every text
`a`; and `formatUnifiedDiff("", b)` consists of the single line `"- "`
(for the one empty line of `"".split('\n')`) whenever `b` has no empty
line — and no `-` line otherwise — followed by `+`-prefixed copies of
exactly the non-empty lines of `b`, in original order (empty lines of
`b` are omitted, because they match the empty before-line). -/
theorem c5_diff_laws :
    (∀ a : String, formatUnifiedDiff a a = "") ∧
    (∀ b : String, formatUnifiedDiff "" b =
      String.intercalate "\n"
        ((if (jsSplit b '\n').contains "" then [] else ["- "]) ++
          ((jsSplit b '\n').filter (fun l => l != "")).map (fun l => "+ " ++ l))) := by
  constructor
  · intro a
    show String.intercalate "\n"
      (((jsSplit a '\n').filter (fun line => !(jsSplit a '\n').contains line)).map
          (fun line => "- " ++ line) ++
        ((jsSplit a '\n').filter (fun line => !(jsSplit a '\n').contains line)).map
          (fun line => "+ " ++ line)) = ""
    rw [filter_not_contains_self]
    rfl
  · intro b
    show String.intercalate "\n"
      ((([""] : List String).filter (fun line => !(jsSplit b '\n').contains line)).map
          (fun line => "- " ++ line) ++
        ((jsSplit b '\n').filter (fun line => !(([""] : List String).contains line))).map
          (fun line => "+ " ++ line)) = _
    rw [diff_lines_empty_before]

/-! ## Claim C10 — the label of an element with no label sources -/

set_option maxRecDepth 4096 in
/-- Claim C10 (confirmed): when every attribute label source is absent,
no associated `<label>` exists, and the trimmed text content is empty,
`getLabel` returns the literal `"..."` — the string `'' + '...'` built by
the truncation branch, which the empty string reaches because `''` is
falsy in `text && text.length <= 50`. -/
theorem c10_empty_text_label_is_ellipsis (el : LabelSourceElem)
    (h1 : el.ariaLabel = none) (h2 : el.ariaLabelledByText = none)
    (h3 : el.title = none) (h4 : el.alt = none) (h5 : el.placeholder = none)
    (h6 : el.associatedLabel = none) (h7 : jsTrim el.textContent = "") :
    getLabel el = some "..." := by
  unfold getLabel labelFromText
  rw [h1, h2, h3, h4, h5, h6, h7]
  decide

/-- Claim C10, witness: a concrete element (whitespace-only text content)
for which `getLabel` returns `"..."`. -/
theorem c10_witness :
    getLabel ⟨none, none, none, none, none, none, "  "⟩ = some "..." :=
  c10_empty_text_label_is_ellipsis ⟨none, none, none, none, none, none, "  "⟩
    rfl rfl rfl rfl rfl rfl (by decide)

/-! ## Claim C7 — password input-type redaction -/

/-- The first loaded rule is always the enabled built-in
`input-password` rule, so the input-type check succeeds for `"password"`
whatever the custom rules and the target are. -/
theorem shouldRedact_password (customs : List RedactionRule)
    (target : ElementDescriptor) :
    shouldRedactInputType (loadRules customs) target "password" = true := rfl

/-- For the same reason the replacement for a `password` input is the
`input-password` rule's `"[PASSWORD]"`. -/
theorem getReplacement_password (customs : List RedactionRule)
    (target : ElementDescriptor) :
    getReplacementForInputType (loadRules customs) target "password" = "[PASSWORD]" := rfl

/-- Claim C7 (confirmed): with the rules loaded by `loadRules` (the
defaults, which enable the `password` input-type rule, followed by any
custom rules), `process` maps every `user:input` event whose payload
input type is `password` to the payload value exactly `"[PASSWORD]"`,
regardless of the original value's content or length. -/
theorem c7_password_value (customs : List RedactionRule) (e : DOMEvent)
    (ip : InputPayload)
    (h1 : e.type = EventType.userInput) (h2 : e.payload = EventPayload.input ip)
    (h3 : ip.inputType = "password") :
    (process (loadRules customs) e).payload
      = EventPayload.input { ip with value := "[PASSWORD]" } := by
  rw [process_eq]
  show processPayload (loadRules customs) e.type e.target e.payload = _
  rw [h1, h2]
  unfold processPayload
  obtain ⟨it, v, ss, se⟩ := ip
  simp only at h3
  subst h3
  simp [shouldRedact_password, getReplacement_password]
  exact fun hfalse => absurd hfalse (by decide)

/-- Claim C7, witness: a concrete password input event whose stored value
becomes `"[PASSWORD]"`. -/
theorem c7_witness :
    (process (loadRules []) ⟨"e1", "s1", 3, 0, EventType.userInput,
        ⟨"input", none, [], none, none, "/html/body/input[1]", "input", none⟩,
        EventPayload.input ⟨"password", "hunter2", none, none⟩, none⟩).payload
      = EventPayload.input ⟨"password", "[PASSWORD]", none, none⟩ :=
  c7_password_value [] _ ⟨"password", "hunter2", none, none⟩ rfl rfl rfl

/-! ## Claim C6 — idempotence of `process` -/

/-- Claim C6, counterexample: `process(process(e)) ≠ process(e)` for the
rule set loaded from a custom regex rule replacing `a` by `aa` and an
event labelled `"a"`: the first pass yields label `"aa"`, the second
`"aaaa"`.  The cascade re-runs each enabled regex rule on already-redacted
text, so a replacement that re-matches breaks idempotence. -/
theorem c6_counterexample :
    process (loadRules [⟨"custom-a", "Custom a", RuleType.regex, "a", "aa", true⟩])
        (process (loadRules [⟨"custom-a", "Custom a", RuleType.regex, "a", "aa", true⟩])
          ⟨"e1", "s1", 0, 0, EventType.userFocus,
            ⟨"button", none, [], none, some "a", "/html/body/button[1]", "button", none⟩,
            EventPayload.focus ⟨true⟩, none⟩)
      ≠ process (loadRules [⟨"custom-a", "Custom a", RuleType.regex, "a", "aa", true⟩])
          ⟨"e1", "s1", 0, 0, EventType.userFocus,
            ⟨"button", none, [], none, some "a", "/html/body/button[1]", "button", none⟩,
            EventPayload.focus ⟨true⟩, none⟩ := by decide

/-- `processLabel` is idempotent when the cascade is idempotent on the
label text. -/
theorem processLabel_idem (eng : RedactionEngine) (lbl : Option String)
    (h : ∀ l, lbl = some l → redactText eng (redactText eng l) = redactText eng l) :
    processLabel eng (processLabel eng lbl) = processLabel eng lbl := by
  cases lbl with
  | none => rfl
  | some l =>
      unfold processLabel
      by_cases hl : l = ""
      · subst hl; simp
      · simp only [hl, if_pos, ne_eq, not_false_eq_true, if_true]
        by_cases hr : redactText eng l = ""
        · simp [hr]
        · simp [hr, h l rfl]

/-- `processPayload` is idempotent (for any relabelled target) when the
cascade is idempotent on the input value: a full input-type/selector
replacement is decided by fields the first pass never changes, and the
regex path reduces to cascade idempotence. -/
theorem processPayload_idem (eng : RedactionEngine) (ty : EventType)
    (tgt : ElementDescriptor) (x : Option String) (pl : EventPayload)
    (hv : ∀ ip, pl = EventPayload.input ip →
      redactText eng (redactText eng ip.value) = redactText eng ip.value) :
    processPayload eng ty { tgt with label := x } (processPayload eng ty tgt pl)
      = processPayload eng ty tgt pl := by
  unfold processPayload
  cases hty : (ty == EventType.userInput) with
  | false => rfl
  | true =>
      cases pl with
      | input ip =>
          have hsr : shouldRedactInputType eng { tgt with label := x } ip.inputType
              = shouldRedactInputType eng tgt ip.inputType :=
            shouldRedactAux_fields { tgt with label := x } tgt rfl rfl rfl
              ip.inputType eng.rules
          have hgr : getReplacementForInputType eng { tgt with label := x } ip.inputType
              = getReplacementForInputType eng tgt ip.inputType :=
            getReplacementAux_fields { tgt with label := x } tgt rfl rfl rfl
              ip.inputType eng.rules
          obtain ⟨it, v, ss, se⟩ := ip
          cases hs : shouldRedactInputType eng tgt it with
          | true => simp_all
          | false => simp_all
      | mutation p => rfl
      | click p => rfl
      | scroll p => rfl
      | navigation p => rfl
      | focus p => rfl
      | error m => rfl

/-- `redactAttributes` is idempotent when the cascade is idempotent on
each attribute value: a name-rule replacement is reproduced on the second
pass (the key is unchanged), and other values reduce to cascade
idempotence. -/
theorem redactAttributes_idem (eng : RedactionEngine) (attrs : List (String × String))
    (h : ∀ kv ∈ attrs, redactText eng (redactText eng kv.2) = redactText eng kv.2) :
    redactAttributes eng (redactAttributes eng attrs) = redactAttributes eng attrs := by
  induction attrs with
  | nil => rfl
  | cons kv rest ih =>
      have hkv := h kv (by simp)
      have hrest := ih (fun p hp => h p (by simp [hp]))
      unfold redactAttributes at hrest ⊢
      simp only [List.map_cons]
      cases hf : findAttributeRule eng kv.1 <;> simp_all [hf]

/-- `processSnap` is idempotent when the cascade is idempotent on the
snapshot's html, text and attribute values. -/
theorem processSnap_idem (eng : RedactionEngine) (ds : Option DOMFragment)
    (h : ∀ fr, ds = some fr →
      redactText eng (redactText eng fr.html) = redactText eng fr.html ∧
      redactText eng (redactText eng fr.text) = redactText eng fr.text ∧
      ∀ kv ∈ fr.attributes,
        redactText eng (redactText eng kv.2) = redactText eng kv.2) :
    processSnap eng (processSnap eng ds) = processSnap eng ds := by
  cases ds with
  | none => rfl
  | some fr =>
      obtain ⟨hh, ht, ha⟩ := h fr rfl
      unfold processSnap
      simp [hh, ht, redactAttributes_idem eng fr.attributes ha]

/-- Claim C6 (amended): `process` is idempotent on an event whenever the
regex cascade `redactText` is idempotent on each of the event's
redactable text fields — the target label, the input value, and the
snapshot html, text and attribute values.  The full-value
input-type/selector replacement and the attribute-name replacement need
no such hypothesis (they are decided by fields the first pass never
changes).  The counterexample shows the hypothesis cannot simply be
dropped: a regex rule whose replacement re-matches its own pattern
breaks idempotence through these fields. -/
theorem c6_amended (eng : RedactionEngine) (e : DOMEvent)
    (hlabel : ∀ l, e.target.label = some l →
      redactText eng (redactText eng l) = redactText eng l)
    (hvalue : ∀ ip, e.payload = EventPayload.input ip →
      redactText eng (redactText eng ip.value) = redactText eng ip.value)
    (hsnap : ∀ fr, e.domSnapshot = some fr →
      redactText eng (redactText eng fr.html) = redactText eng fr.html ∧
      redactText eng (redactText eng fr.text) = redactText eng fr.text ∧
      ∀ kv ∈ fr.attributes,
        redactText eng (redactText eng kv.2) = redactText eng kv.2) :
    process eng (process eng e) = process eng e := by
  rw [process_eq eng (process eng e), process_eq eng e]
  dsimp only
  simp only [DOMEvent.mk.injEq]
  refine ⟨trivial, trivial, trivial, trivial, trivial, ?_, ?_, ?_⟩
  · show { e.target with label := processLabel eng (processLabel eng e.target.label) } = _
    rw [processLabel_idem eng e.target.label hlabel]
  · exact processPayload_idem eng e.type e.target _ e.payload hvalue
  · exact processSnap_idem eng e.domSnapshot hsnap

/-- Claim C6, witness: a concrete input event (with label, value and
snapshot) on which the default rule set is idempotent; the hypotheses are
evaluated by computation. -/
theorem c6_amended_witness :
    process (loadRules []) (process (loadRules [])
        ⟨"e1", "s1", 0, 0, EventType.userInput,
          ⟨"input", none, [], none, some "Name", "/html/body/input[1]", "input", none⟩,
          EventPayload.input ⟨"text", "Bob", none, none⟩,
          some ⟨"<input>", "", [("class", "c")]⟩⟩)
      = process (loadRules [])
        ⟨"e1", "s1", 0, 0, EventType.userInput,
          ⟨"input", none, [], none, some "Name", "/html/body/input[1]", "input", none⟩,
          EventPayload.input ⟨"text", "Bob", none, none⟩,
          some ⟨"<input>", "", [("class", "c")]⟩⟩ :=
  c6_amended (loadRules []) _
    (fun l hl => by simp only [Option.some.injEq] at hl; subst hl; decide)
    (fun ip hip => by simp only [EventPayload.input.injEq] at hip; subst hip; decide)
    (fun fr hfr => by simp only [Option.some.injEq] at hfr; subst hfr; refine ⟨by decide, by decide, ?_⟩; decide)

/-! ## Claim C1 — the synthetic initial navigation event bypasses the
redaction engine -/

/-- Claim C1 (code bug): starting a recording on a page whose HTML
contains an email address places the synthetic page-load navigation
event into the event buffer — and from there into the persistence
flush — carrying the raw page HTML.  `captureInitialState` pushes the
event directly, without a `redactionEngine.process` call; the email
survives verbatim even though the engine's own cascade would have
replaced it, and `process` itself never touches `initialHTML`, so even
routing the event through the engine would not have redacted it. -/
theorem c1_initial_event_bypasses_redaction :
    (startChron "s1" [] 102400 "evt0" 0 "https://x.test/"
        "<p>Contact: user@example.com</p>").eventBuffer
      = [⟨"evt0", "s1", 0, 0, EventType.userNavigation,
          ⟨"document", none, [], none, none, "/", ":root", none⟩,
          EventPayload.navigation
            ⟨"https://x.test/", NavType.pageload, some "<p>Contact: user@example.com</p>"⟩,
          none⟩] ∧
    (flushBuffer (startChron "s1" [] 102400 "evt0" 0 "https://x.test/"
        "<p>Contact: user@example.com</p>")).flushed
      = [⟨"evt0", "s1", 0, 0, EventType.userNavigation,
          ⟨"document", none, [], none, none, "/", ":root", none⟩,
          EventPayload.navigation
            ⟨"https://x.test/", NavType.pageload, some "<p>Contact: user@example.com</p>"⟩,
          none⟩] ∧
    strContains "<p>Contact: user@example.com</p>" "user@example.com" = true ∧
    redactText (loadRules []) "<p>Contact: user@example.com</p>"
      = "<p>Contact: [EMAIL]</p>" ∧
    process (loadRules [])
        ⟨"evt0", "s1", 0, 0, EventType.userNavigation,
          ⟨"document", none, [], none, none, "/", ":root", none⟩,
          EventPayload.navigation
            ⟨"https://x.test/", NavType.pageload, some "<p>Contact: user@example.com</p>"⟩,
          none⟩
      = ⟨"evt0", "s1", 0, 0, EventType.userNavigation,
          ⟨"document", none, [], none, none, "/", ":root", none⟩,
          EventPayload.navigation
            ⟨"https://x.test/", NavType.pageload, some "<p>Contact: user@example.com</p>"⟩,
          none⟩ := by
  refine ⟨by decide, by decide, by decide, by decide, by decide⟩

/-! ## Claim C2 — DOM snapshots are never sanitized -/

/-- Claim C2 (code bug): a click on an element whose serialized HTML
contains a `<script>` child produces a buffered event whose
`domSnapshot.html` is the raw `outerHTML` — `captureFragment` never calls
`sanitizeHTML` (despite its comment deferring sanitization to the
redaction engine), the sanitizer module is imported nowhere in the
pipeline, and the redaction pass only runs the regex cascade, which
leaves the `<script>` tag (a tag `SANITIZE_CONFIG.FORBID_TAGS` bans from
sanitized output) in the stored snapshot. -/
theorem c2_snapshot_never_sanitized :
    (handleEvent
        (startChron "s1" [] 102400 "evt0" 0 "https://x.test/" "<p>hi</p>")
        (emitClick "evt1" "s1" 5 0
          ⟨"<div><script>alert(1)</script></div>", "alert(1)", []⟩
          ⟨"div", none, [], none, none, "/html/body/div[1]", "div", none⟩
          ⟨0, 10, 20, false, false, false, false⟩)).eventBuffer.getLast?
      = some ⟨"evt1", "s1", 5, 1, EventType.userClick,
          ⟨"div", none, [], none, none, "/html/body/div[1]", "div", none⟩,
          EventPayload.click ⟨0, 10, 20, false, false, false, false⟩,
          some ⟨"<div><script>alert(1)</script></div>", "alert(1)", []⟩⟩ ∧
    strContains "<div><script>alert(1)</script></div>" "<script>" = true ∧
    SANITIZE_FORBID_TAGS.contains "script" = true := by
  refine ⟨by decide, by decide, by decide⟩

/-! ## Claim C3 — stop loses the pending micro-batch and the pending
debounced input -/

/-- Claim C3 (code bug): with one mutation event in the pending
micro-batch and one debounced input pending when `stop` is called,
neither reaches the stream.  `DOMChronicle.stop` clears `isRecording`
*before* `MutationCapture.stop` drains the batch, so the drained events
are dropped by `handleEvent`'s recording guard; `EventCapture.stop` only
removes listeners and never flushes the pending debounce, and when the
orphaned debounce timer later fires the event is likewise dropped.  Only
the initial navigation event is ever flushed. -/
theorem c3_stop_drops_pending_events :
    (sysInput
        (sysBatchMutation
          (sysStart "s1" [] 102400 "evt0" 0 "https://x.test/" "<p>hi</p>")
          ⟨"m1", "s1", 10, 0, EventType.mutationText,
            ⟨"p", none, [], none, none, "/html/body/p[1]", "p", none⟩,
            EventPayload.mutation
              ⟨MutationKind.characterData, none, none, none, some "a", some "b", none, none⟩,
            none⟩)
        ⟨"i1", "s1", 12, 1, EventType.userInput,
          ⟨"input", none, [], none, none, "/html/body/input[1]", "input", none⟩,
          EventPayload.input ⟨"text", "hello", none, none⟩, none⟩).batchBuffer.length = 1 ∧
    (sysInput
        (sysBatchMutation
          (sysStart "s1" [] 102400 "evt0" 0 "https://x.test/" "<p>hi</p>")
          ⟨"m1", "s1", 10, 0, EventType.mutationText,
            ⟨"p", none, [], none, none, "/html/body/p[1]", "p", none⟩,
            EventPayload.mutation
              ⟨MutationKind.characterData, none, none, none, some "a", some "b", none, none⟩,
            none⟩)
        ⟨"i1", "s1", 12, 1, EventType.userInput,
          ⟨"input", none, [], none, none, "/html/body/input[1]", "input", none⟩,
          EventPayload.input ⟨"text", "hello", none, none⟩, none⟩).pendingDebounce.isSome = true ∧
    (sysDebounceFire (sysStop
        (sysInput
          (sysBatchMutation
            (sysStart "s1" [] 102400 "evt0" 0 "https://x.test/" "<p>hi</p>")
            ⟨"m1", "s1", 10, 0, EventType.mutationText,
              ⟨"p", none, [], none, none, "/html/body/p[1]", "p", none⟩,
              EventPayload.mutation
                ⟨MutationKind.characterData, none, none, none, some "a", some "b", none, none⟩,
              none⟩)
          ⟨"i1", "s1", 12, 1, EventType.userInput,
            ⟨"input", none, [], none, none, "/html/body/input[1]", "input", none⟩,
            EventPayload.input ⟨"text", "hello", none, none⟩, none⟩))).chron.flushed.map
        (fun ev => ev.id) = ["evt0"] ∧
    (sysDebounceFire (sysStop
        (sysInput
          (sysBatchMutation
            (sysStart "s1" [] 102400 "evt0" 0 "https://x.test/" "<p>hi</p>")
            ⟨"m1", "s1", 10, 0, EventType.mutationText,
              ⟨"p", none, [], none, none, "/html/body/p[1]", "p", none⟩,
              EventPayload.mutation
                ⟨MutationKind.characterData, none, none, none, some "a", some "b", none, none⟩,
              none⟩)
          ⟨"i1", "s1", 12, 1, EventType.userInput,
            ⟨"input", none, [], none, none, "/html/body/input[1]", "input", none⟩,
            EventPayload.input ⟨"text", "hello", none, none⟩, none⟩))).chron.eventBuffer
      = [] := by
  refine ⟨by decide, by decide, by decide, by decide⟩

/-! ## Claim C4 — sequence numbers are gap-free from 0 -/

/-- `flushBuffer` moves events without changing the session's event list
or the counter. -/
theorem flushBuffer_sessionEvents (st : ChronState) :
    sessionEvents (flushBuffer st) = sessionEvents st ∧
      (flushBuffer st).sequence = st.sequence := by
  unfold flushBuffer sessionEvents
  split
  · exact ⟨rfl, rfl⟩
  · simp

/-- `stopChron` moves events without changing the session's event list or
the counter. -/
theorem stopChron_sessionEvents (st : ChronState) :
    sessionEvents (stopChron st) = sessionEvents st ∧
      (stopChron st).sequence = st.sequence := by
  unfold stopChron
  split
  · exact ⟨rfl, rfl⟩
  · exact flushBuffer_sessionEvents _

/-- The sequence invariant: the session's events carry exactly the
sequence numbers `0, 1, …, sequence - 1`, in order. -/
def SeqInv (st : ChronState) : Prop :=
  (sessionEvents st).map (fun ev => ev.sequence) = List.range st.sequence

/-- `flushBuffer` preserves the sequence invariant. -/
theorem seqInv_flushBuffer (st : ChronState) (h : SeqInv st) :
    SeqInv (flushBuffer st) := by
  unfold SeqInv
  rw [(flushBuffer_sessionEvents st).1, (flushBuffer_sessionEvents st).2]
  exact h

/-- `stopChron` preserves the sequence invariant. -/
theorem seqInv_stopChron (st : ChronState) (h : SeqInv st) :
    SeqInv (stopChron st) := by
  unfold SeqInv
  rw [(stopChron_sessionEvents st).1, (stopChron_sessionEvents st).2]
  exact h

/-- Accepting an event stamped with the current counter extends the
gap-free range by one. -/
theorem seqInv_push (st : ChronState) (red : DOMEvent)
    (hseq : red.sequence = st.sequence) (h : SeqInv st) :
    SeqInv { st with sequence := st.sequence + 1,
                     eventBuffer := st.eventBuffer ++ [red] } := by
  unfold SeqInv sessionEvents at h ⊢
  dsimp only
  rw [← List.append_assoc, List.map_append, h, List.range_succ]
  simp [hseq]

/-- `handleEvent` preserves the sequence invariant: an accepted event is
stamped with the current counter value and the counter is incremented;
dropped events change nothing. -/
theorem handleEvent_seqInv (st : ChronState) (e : DOMEvent) (h : SeqInv st) :
    SeqInv (handleEvent st e) := by
  unfold handleEvent
  split
  · exact h
  split
  · exact seqInv_stopChron _ h
  dsimp only
  split
  · exact seqInv_flushBuffer _ (seqInv_push st _ rfl h)
  · exact seqInv_push st _ rfl h

/-- Every orchestrator operation preserves the sequence invariant. -/
theorem applyOp_seqInv (st : ChronState) (op : ChronOp) (h : SeqInv st) :
    SeqInv (applyOp st op) := by
  cases op with
  | handle e => exact handleEvent_seqInv st e h
  | flushTick =>
      show SeqInv (flushBuffer st)
      unfold SeqInv
      rw [(flushBuffer_sessionEvents st).1, (flushBuffer_sessionEvents st).2]
      exact h
  | stopOp =>
      show SeqInv (stopChron st)
      unfold SeqInv
      rw [(stopChron_sessionEvents st).1, (stopChron_sessionEvents st).2]
      exact h

/-- Runs preserve the sequence invariant. -/
theorem runOps_seqInv (ops : List ChronOp) (st : ChronState) (h : SeqInv st) :
    SeqInv (runOps st ops) := by
  induction ops generalizing st with
  | nil => exact h
  | cons op rest ih => exact ih (applyOp st op) (applyOp_seqInv st op h)

/-- `start` establishes the invariant: the synthetic initial event takes
sequence 0 and the counter moves to 1. -/
theorem startChron_seqInv (sessionId : String) (customs : List RedactionRule)
    (maxInit : Nat) (eventId : String) (ts : Nat) (url pageHTML : String) :
    SeqInv (startChron sessionId customs maxInit eventId ts url pageHTML) := by
  unfold SeqInv startChron captureInitialState sessionEvents
  rfl

/-- Claim C4 (confirmed): in every recording session — a `start` followed
by any sequence of deliveries, flush ticks and stops — the sequence
numbers of the events accepted into the outbound buffer (flushed or
still buffered, in acceptance order) are exactly `0, 1, …, n-1`:
strictly increasing, gap-free, starting at 0. -/
theorem c4_sequence_numbers_gap_free (sessionId : String)
    (customs : List RedactionRule) (maxInit : Nat) (eventId : String) (ts : Nat)
    (url pageHTML : String) (ops : List ChronOp) :
    (sessionEvents (runOps
          (startChron sessionId customs maxInit eventId ts url pageHTML) ops)).map
        (fun ev => ev.sequence)
      = List.range (runOps
          (startChron sessionId customs maxInit eventId ts url pageHTML) ops).sequence :=
  runOps_seqInv ops _
    (startChron_seqInv sessionId customs maxInit eventId ts url pageHTML)

/-! ## Claim C8 — rendering of a single-element `mutation:add` -/

/-- A `+ `-prefixed line never begins with `- `. -/
theorem plus_prefix_not_minus (x : String) :
    ¬ ∃ r, ("+ " ++ x : String) = "- " ++ r := by
  rintro ⟨r, hr⟩
  have ha := congrArg String.data hr
  rw [String.data_append, String.data_append] at ha
  have hb := congrArg (fun l => List.take 2 l) ha
  simp only [List.take_left' (by decide : ("+ " : String).data.length = 2),
    List.take_left' (by decide : ("- " : String).data.length = 2)] at hb
  exact absurd hb (by decide)

/-- Claim C8, counterexample: the rendering of a one-element
`mutation:add` on `form#contact-form` does **not** begin with
``1 element added to `form#contact-form` `` — the selector is wrapped in
parentheses around the backticks, so the character after `"added to "`
is `(`, not a backtick. -/
theorem c8_counterexample :
    ¬ ∃ rest, describeEvent 500
        ⟨"e1", "s1", 0, 0, EventType.mutationAdd,
          ⟨"form", some "contact-form", [], none, none, "/html/body/form[1]",
            "form#contact-form", none⟩,
          EventPayload.mutation
            ⟨MutationKind.childList, some [⟨"<input>", "", []⟩], none, none, none,
              none, none, none⟩,
          none⟩
      = "1 element added to `form#contact-form`" ++ rest := by
  rintro ⟨rest, h⟩
  have hc : describeEvent 500
        ⟨"e1", "s1", 0, 0, EventType.mutationAdd,
          ⟨"form", some "contact-form", [], none, none, "/html/body/form[1]",
            "form#contact-form", none⟩,
          EventPayload.mutation
            ⟨MutationKind.childList, some [⟨"<input>", "", []⟩], none, none, none,
              none, none, none⟩,
          none⟩
      = "1 element added to (`form#contact-form`)\n\n```diff\n+ <input>\n```" := by
    decide
  rw [hc] at h
  have h2 := congrArg String.data h
  rw [String.data_append] at h2
  have h3 := congrArg (fun l => List.take 38 l) h2
  simp only [List.take_left'
    (by decide : ("1 element added to `form#contact-form`" : String).data.length = 38)] at h3
  exact absurd h3 (by decide)

/-- Claim C8 (amended): for a `mutation:add` event with exactly one
added-node fragment, target CSS selector `form#contact-form` and no
parent-context snapshot, the rendered description begins with
``1 element added to (`form#contact-form`)`` — the selector wrapped in
parentheses and backticks — and its diff block consists exactly of the
fragment's lines (truncated to the fragment budget), every one
`+ `-prefixed and none `- `-prefixed. -/
theorem c8_amended (maxLen : Nat) (e : DOMEvent) (p : MutationPayload)
    (fr : DOMFragment)
    (h1 : e.type = EventType.mutationAdd) (h2 : e.payload = EventPayload.mutation p)
    (h3 : p.addedNodes = some [fr]) (h4 : p.parentHTMLBefore = none)
    (h5 : p.parentHTMLAfter = none) (h6 : e.target.cssSelector = "form#contact-form") :
    describeEvent maxLen e
      = "1 element added to (`form#contact-form`)" ++ ("\n\n" ++ ("```diff\n" ++
          (String.intercalate "\n"
            ((jsSplit (truncate fr.html maxLen) '\n').map (fun l => "+ " ++ l))
           ++ "\n```"))) ∧
    (∀ l ∈ (jsSplit (truncate fr.html maxLen) '\n').map (fun l => "+ " ++ l),
      (∃ r, l = "+ " ++ r) ∧ ¬ ∃ r, l = "- " ++ r) := by
  constructor
  · obtain ⟨i, sid, ts, sq, ty, tgt, pl, ds⟩ := e
    obtain ⟨tn, tid, tcl, trl, tlb, txp, tcss, tbr⟩ := tgt
    simp only at h1 h2 h6
    subst h1; subst h2; subst h6
    obtain ⟨mk, an, rn, anm, ov, nv, phb, pha⟩ := p
    simp only at h3 h4 h5
    subst h3; subst h4; subst h5
    with_unfolding_all rfl
  · intro l hl
    obtain ⟨x, _, rfl⟩ := List.mem_map.mp hl
    exact ⟨⟨x, rfl⟩, plus_prefix_not_minus x⟩

/-- Claim C8, witness: the concrete one-element `mutation:add` rendering. -/
theorem c8_witness :
    describeEvent 500
        ⟨"e1", "s1", 0, 0, EventType.mutationAdd,
          ⟨"form", some "contact-form", [], none, none, "/html/body/form[1]",
            "form#contact-form", none⟩,
          EventPayload.mutation
            ⟨MutationKind.childList, some [⟨"<input>", "", []⟩], none, none, none,
              none, none, none⟩,
          none⟩
      = "1 element added to (`form#contact-form`)" ++ ("\n\n" ++ ("```diff\n" ++
          (String.intercalate "\n"
            ((jsSplit (truncate ("<input>" : String) 500) '\n').map (fun l => "+ " ++ l))
           ++ "\n```"))) ∧
    (∀ l ∈ (jsSplit (truncate ("<input>" : String) 500) '\n').map (fun l => "+ " ++ l),
      (∃ r, l = "+ " ++ r) ∧ ¬ ∃ r, l = "- " ++ r) :=
  c8_amended 500
    ⟨"e1", "s1", 0, 0, EventType.mutationAdd,
      ⟨"form", some "contact-form", [], none, none, "/html/body/form[1]",
        "form#contact-form", none⟩,
      EventPayload.mutation
        ⟨MutationKind.childList, some [⟨"<input>", "", []⟩], none, none, none,
          none, none, none⟩,
      none⟩
    ⟨MutationKind.childList, some [⟨"<input>", "", []⟩], none, none, none,
      none, none, none⟩
    ⟨"<input>", "", []⟩ rfl rfl rfl rfl rfl rfl

/-! ## Claim C9 — trailing-edge throttle for scroll notifications -/

/-- When every notification is at or before `t`, the position at `t` is
the last notification's. -/
theorem posAt_all_le (l : List (Nat × (Int × Int))) (t : Nat)
    (h : ∀ n ∈ l, n.1 ≤ t) :
    posAt l t = ((l.getLast?).map Prod.snd).getD (0, 0) := by
  unfold posAt
  rw [List.filter_eq_self.mpr (fun a ha => decide_eq_true (h a ha))]
  cases hg : l.getLast? <;> simp [hg]

/-- A later notification does not change the position at `t`. -/
theorem posAt_append_gt (l : List (Nat × (Int × Int))) (n : Nat × (Int × Int))
    (t : Nat) (h : t < n.1) :
    posAt (l ++ [n]) t = posAt l t := by
  unfold posAt
  rw [List.filter_append]
  have h1 : [n].filter (fun m => m.1 ≤ t) = [] := by
    simp [Nat.not_le.mpr h]
  rw [h1, List.append_nil]

/-- A notification at or before `t` becomes the position at `t`. -/
theorem posAt_append_le (l : List (Nat × (Int × Int))) (n : Nat × (Int × Int))
    (t : Nat) (h : n.1 ≤ t) :
    posAt (l ++ [n]) t = n.2 := by
  unfold posAt
  rw [List.filter_append]
  have h1 : [n].filter (fun m => m.1 ≤ t) = [n] := by simp [h]
  rw [h1, List.getLast?_concat]

/-- Invariant of the throttled scroll pipeline after handling the
notifications `processed`, whose times are bounded by `horiz`:
emissions are at least `wait` apart, each emission carries the scroll
position current at its time, `lastCall` is the last emission time, and
a pending timeout always fires exactly at `lastCall + wait` — the
boundary of the current window — and lies strictly in the future. -/
structure ThrInv (wait : Nat) (st : ThrottleState)
    (processed : List (Nat × (Int × Int))) (horiz : Nat) : Prop where
  hwait : st.wait = wait
  gap : List.Chain' (fun a b => a.1 + wait ≤ b.1) st.emissions
  latest : ∀ e ∈ st.emissions, e.2 = posAt processed e.1
  emisLe : ∀ e ∈ st.emissions, e.1 ≤ horiz
  lastCallEq : st.lastCall = ((st.emissions.getLast?).map Prod.fst).getD 0
  lastCallLe : st.lastCall ≤ horiz
  pendingInv : ∀ ft a, st.pendingFire = some (ft, a) →
    ft = st.lastCall + wait ∧ horiz < ft
  posInv : st.scrollPos = ((processed.getLast?).map Prod.snd).getD (0, 0)
  procLe : ∀ n ∈ processed, n.1 ≤ horiz

/-- Appending an emission whose time keeps the `wait` gap preserves the
chain. -/
theorem chain_snoc (wait : Nat) (l : List (Nat × (Int × Int)))
    (x : Nat × (Int × Int))
    (h : List.Chain' (fun a b => a.1 + wait ≤ b.1) l)
    (hx : ∀ y ∈ l.getLast?, y.1 + wait ≤ x.1) :
    List.Chain' (fun a b => a.1 + wait ≤ b.1) (l ++ [x]) := by
  rw [List.chain'_append]
  refine ⟨h, List.chain'_singleton x, ?_⟩
  intro y hy z hz
  rw [List.head?_cons, Option.mem_def, Option.some.injEq] at hz
  subst hz
  exact hx y hy

/-- One step preserves the invariant. -/
theorem stepNotif_inv (wait : Nat) (st : ThrottleState)
    (processed : List (Nat × (Int × Int))) (horiz : Nat)
    (n : Nat × (Int × Int)) (inv : ThrInv wait st processed horiz)
    (hn : horiz < n.1) :
    ThrInv wait (stepNotif st n) (processed ++ [n]) n.1 := by
  obtain ⟨hwait, gap, latest, emisLe, lastCallEq, lastCallLe, pendingInv, posInv, procLe⟩ := inv
  obtain ⟨w, lc, pf, sp, em⟩ := st
  simp only at hwait gap latest emisLe lastCallEq lastCallLe pendingInv posInv procLe
  subst hwait
  have hlc_lt : lc < n.1 := lt_of_le_of_lt lastCallLe hn
  have hlatest' : ∀ e ∈ em, e.2 = posAt (processed ++ [n]) e.1 := by
    intro e he
    rw [posAt_append_gt processed n e.1 (lt_of_le_of_lt (emisLe e he) hn)]
    exact latest e he
  have hemisLe' : ∀ e ∈ em, e.1 ≤ n.1 :=
    fun e he => le_of_lt (lt_of_le_of_lt (emisLe e he) hn)
  have hprocN : ∀ m ∈ processed ++ [n], m.1 ≤ n.1 := by
    intro m hm
    rcases List.mem_append.mp hm with hm | hm
    · exact le_of_lt (lt_of_le_of_lt (procLe m hm) hn)
    · rw [List.mem_singleton.mp hm]
  have hlast_of : ∀ y, em.getLast? = some y → lc = y.1 := by
    intro y hy
    rw [hy] at lastCallEq
    simpa using lastCallEq
  have hposN : (n.2 : Int × Int)
      = (((processed ++ [n]).getLast?).map Prod.snd).getD (0, 0) := by
    rw [List.getLast?_concat]
    rfl
  unfold stepNotif firePending throttledCall
  cases hpf : pf with
  | none =>
      dsimp only
      by_cases himm : w ≤ n.1 - lc
      · rw [if_pos himm]
        have hstep : lc + w ≤ n.1 := by omega
        refine ⟨rfl, ?_, ?_, ?_, ?_, ?_, ?_, ?_, ?_⟩
        · refine chain_snoc w em (n.1, n.2) gap ?_
          intro y hy
          have := hlast_of y hy
          simpa using Nat.le_trans (by omega : y.1 + w ≤ lc + w) hstep
        · intro e he
          rcases List.mem_append.mp he with he | he
          · exact hlatest' e he
          · rw [List.mem_singleton.mp he]
            exact (posAt_append_le processed n n.1 le_rfl).symm
        · intro e he
          rcases List.mem_append.mp he with he | he
          · exact hemisLe' e he
          · rw [List.mem_singleton.mp he]
        · simp [List.getLast?_concat]
        · exact le_rfl
        · intro ft a hfa
          exact absurd hfa (by simp)
        · exact hposN
        · exact hprocN
      · rw [if_neg himm]
        refine ⟨rfl, gap, hlatest', hemisLe', lastCallEq, le_of_lt hlc_lt, ?_, hposN, hprocN⟩
        intro ft a hfa
        simp only [Option.some.injEq, Prod.mk.injEq] at hfa
        refine ⟨hfa.1.symm, ?_⟩
        rw [← hfa.1]
        omega
  | some fta =>
      obtain ⟨hft_eq, hft_gt⟩ := pendingInv fta.1 fta.2 (by rw [hpf])
      dsimp only
      by_cases hfire : fta.1 < n.1
      · rw [if_pos hfire]
        dsimp only
        -- the deferred emission fires at the window boundary fta.1 = lc + w
        have hfired_latest : (sp : Int × Int) = posAt (processed ++ [n]) fta.1 := by
          rw [posAt_append_gt processed n fta.1 hfire,
            posAt_all_le processed fta.1
              (fun m hm => le_of_lt (lt_of_le_of_lt (procLe m hm) hft_gt))]
          exact posInv
        have hchain1 : List.Chain' (fun a b => a.1 + w ≤ b.1) (em ++ [(fta.1, sp)]) := by
          refine chain_snoc w em (fta.1, sp) gap ?_
          intro y hy
          have := hlast_of y hy
          omega
        have hlatest1 : ∀ e ∈ em ++ [(fta.1, sp)], e.2 = posAt (processed ++ [n]) e.1 := by
          intro e he
          rcases List.mem_append.mp he with he | he
          · exact hlatest' e he
          · rw [List.mem_singleton.mp he]
            exact hfired_latest
        have hemisLe1 : ∀ e ∈ em ++ [(fta.1, sp)], e.1 ≤ n.1 := by
          intro e he
          rcases List.mem_append.mp he with he | he
          · exact hemisLe' e he
          · rw [List.mem_singleton.mp he]
            exact le_of_lt hfire
        by_cases himm : w ≤ n.1 - fta.1
        · rw [if_pos himm]
          have hstep : fta.1 + w ≤ n.1 := by omega
          refine ⟨rfl, ?_, ?_, ?_, ?_, ?_, ?_, ?_, ?_⟩
          · refine chain_snoc w (em ++ [(fta.1, sp)]) (n.1, n.2) hchain1 ?_
            intro y hy
            rw [List.getLast?_concat] at hy
            simp only [Option.mem_def, Option.some.injEq] at hy
            subst hy
            exact hstep
          · intro e he
            rcases List.mem_append.mp he with he | he
            · exact hlatest1 e he
            · rw [List.mem_singleton.mp he]
              exact (posAt_append_le processed n n.1 le_rfl).symm
          · intro e he
            rcases List.mem_append.mp he with he | he
            · exact hemisLe1 e he
            · rw [List.mem_singleton.mp he]
          · simp [List.getLast?_concat]
          · exact le_rfl
          · intro ft a hfa
            exact absurd hfa (by simp)
          · exact hposN
          · exact hprocN
        · rw [if_neg himm]
          refine ⟨rfl, hchain1, hlatest1, hemisLe1, ?_, le_of_lt hfire, ?_, hposN, hprocN⟩
          · simp [List.getLast?_concat]
          · intro ft a hfa
            simp only [Option.some.injEq, Prod.mk.injEq] at hfa
            refine ⟨hfa.1.symm, ?_⟩
            rw [← hfa.1]
            omega
      · rw [if_neg hfire]
        dsimp only
        have hle : n.1 ≤ fta.1 := Nat.le_of_not_lt hfire
        by_cases himm : w ≤ n.1 - lc
        · -- n.1 has reached the boundary exactly: the pending timeout is
          -- cleared and replaced by the immediate emission at n.1
          rw [if_pos himm]
          have hstep : lc + w ≤ n.1 := by omega
          refine ⟨rfl, ?_, ?_, ?_, ?_, ?_, ?_, ?_, ?_⟩
          · refine chain_snoc w em (n.1, n.2) gap ?_
            intro y hy
            have := hlast_of y hy
            omega
          · intro e he
            rcases List.mem_append.mp he with he | he
            · exact hlatest' e he
            · rw [List.mem_singleton.mp he]
              exact (posAt_append_le processed n n.1 le_rfl).symm
          · intro e he
            rcases List.mem_append.mp he with he | he
            · exact hemisLe' e he
            · rw [List.mem_singleton.mp he]
          · simp [List.getLast?_concat]
          · exact le_rfl
          · intro ft a hfa
            exact absurd hfa (by simp)
          · exact hposN
          · exact hprocN
        · -- within the window with a pending timeout: the call is dropped
          rw [if_neg himm]
          refine ⟨rfl, gap, hlatest', hemisLe', lastCallEq, le_of_lt hlc_lt, ?_, hposN, hprocN⟩
          intro ft a hfa
          simp only [Option.some.injEq] at hfa
          subst hfa
          have hfteq : ft = lc + w := hft_eq
          exact ⟨hfteq, by omega⟩

/-- The initial throttle state satisfies the invariant with nothing
processed. -/
theorem throttleInit_inv (w : Nat) : ThrInv w (throttleInit w) [] 0 := by
  refine ⟨rfl, List.chain'_nil, ?_, ?_, rfl, le_rfl, ?_, rfl, ?_⟩
  · intro e he; exact absurd he (List.not_mem_nil e)
  · intro e he; exact absurd he (List.not_mem_nil e)
  · intro ft a h; exact Option.noConfusion h
  · intro m hm; exact absurd hm (List.not_mem_nil m)

/-- Folding a strictly increasing tail of notifications over the
throttle preserves the invariant. -/
theorem foldl_stepNotif_inv (w : Nat) (notifs : List (Nat × (Int × Int))) :
    ∀ (st : ThrottleState) (processed : List (Nat × (Int × Int))) (horiz : Nat),
    ThrInv w st processed horiz →
    List.Pairwise (fun a b => a.1 < b.1) notifs →
    (∀ m ∈ notifs, horiz < m.1) →
    ∃ horiz2, ThrInv w (notifs.foldl stepNotif st) (processed ++ notifs) horiz2 := by
  induction notifs with
  | nil =>
      intro st processed horiz inv _ _
      exact ⟨horiz, by simpa using inv⟩
  | cons n ns ih =>
      intro st processed horiz inv hpw hall
      rw [List.pairwise_cons] at hpw
      have h1 := stepNotif_inv w st processed horiz n inv (hall n (List.mem_cons_self n ns))
      have h2 := ih (stepNotif st n) (processed ++ [n]) n.1 h1 hpw.2
        (fun m hm => hpw.1 m hm)
      simpa [List.append_assoc] using h2

/-- The trailing `firePending` keeps the emission gap, emits the latest
observed position at the window boundary, and leaves no timer behind. -/
theorem firePending_inv (w : Nat) (st : ThrottleState)
    (processed : List (Nat × (Int × Int))) (horiz : Nat)
    (inv : ThrInv w st processed horiz) :
    List.Chain' (fun a b => a.1 + w ≤ b.1) (firePending st).emissions ∧
    (∀ e ∈ (firePending st).emissions, e.2 = posAt processed e.1) ∧
    (firePending st).pendingFire = none := by
  obtain ⟨hwait, gap, latest, emisLe, lastCallEq, lastCallLe, pendingInv, posInv, procLe⟩ := inv
  unfold firePending
  cases hpf : st.pendingFire with
  | none => exact ⟨gap, latest, hpf⟩
  | some fta =>
      obtain ⟨hft_eq, hft_gt⟩ := pendingInv fta.1 fta.2 (by rw [hpf])
      obtain ⟨ft, a⟩ := fta
      dsimp only
      refine ⟨?_, ?_, rfl⟩
      · refine chain_snoc w st.emissions (ft, st.scrollPos) gap ?_
        intro y hy
        rw [hy] at lastCallEq
        simp at lastCallEq
        simp only at hft_eq
        omega
      · intro e he
        rcases List.mem_append.mp he with he | he
        · exact latest e he
        · rw [List.mem_singleton.mp he]
          dsimp only
          rw [posAt_all_le processed ft
            (fun m hm => le_of_lt (lt_of_le_of_lt (procLe m hm) hft_gt))]
          exact posInv


/-- Claim C9 (confirmed): the scroll pipeline is a trailing-edge
throttle.  For any strictly increasing timeline of scroll notifications
starting after time 0: successive emissions are at least `wait` apart
(at most one emission per throttle window); every emission carries the
scroll position current at its emission time, i.e. the latest position
observed (the deferred callback reads the live scroll position, not the
captured arguments); a deferred invocation is always scheduled to fire
exactly at the window boundary `lastCall + wait`; and after the run no
timer is left pending. -/
theorem c9_trailing_edge_throttle (wait : Nat) (notifs : List (Nat × (Int × Int)))
    (hsorted : List.Pairwise (fun a b => a.1 < b.1) notifs)
    (hpos : ∀ m ∈ notifs, 0 < m.1) :
    List.Chain' (fun a b => a.1 + wait ≤ b.1) (runThrottle wait notifs).emissions ∧
    (∀ e ∈ (runThrottle wait notifs).emissions, e.2 = posAt notifs e.1) ∧
    (∀ ft a, (notifs.foldl stepNotif (throttleInit wait)).pendingFire = some (ft, a) →
      ft = (notifs.foldl stepNotif (throttleInit wait)).lastCall + wait) ∧
    (runThrottle wait notifs).pendingFire = none := by
  obtain ⟨horiz, inv⟩ := foldl_stepNotif_inv wait notifs (throttleInit wait) [] 0
    (throttleInit_inv wait) hsorted hpos
  rw [List.nil_append] at inv
  have fin := firePending_inv wait (notifs.foldl stepNotif (throttleInit wait)) notifs horiz inv
  exact ⟨fin.1, fin.2.1, fun ft a h => (inv.pendingInv ft a h).1, fin.2.2⟩

/-- Claim C9, witness: a concrete timeline with two notifications inside
the first window (the second is deferred and fires at the boundary with
the latest position) and a third in a fresh window. -/
theorem c9_witness :
    (List.Pairwise (fun (a b : Nat × (Int × Int)) => a.1 < b.1)
        [(3, (0, 1)), (5, (0, 2)), (20, (0, 3))] ∧
      ∀ m ∈ ([(3, (0, 1)), (5, (0, 2)), (20, (0, 3))] : List (Nat × (Int × Int))),
        0 < m.1) ∧
    (List.Chain' (fun a b => a.1 + 10 ≤ b.1)
        (runThrottle 10 [(3, (0, 1)), (5, (0, 2)), (20, (0, 3))]).emissions ∧
      (∀ e ∈ (runThrottle 10 [(3, (0, 1)), (5, (0, 2)), (20, (0, 3))]).emissions,
        e.2 = posAt [(3, (0, 1)), (5, (0, 2)), (20, (0, 3))] e.1) ∧
      (∀ ft a,
        (([(3, (0, 1)), (5, (0, 2)), (20, (0, 3))] : List (Nat × (Int × Int))).foldl
            stepNotif (throttleInit 10)).pendingFire = some (ft, a) →
        ft = (([(3, (0, 1)), (5, (0, 2)), (20, (0, 3))] : List (Nat × (Int × Int))).foldl
            stepNotif (throttleInit 10)).lastCall + 10) ∧
      (runThrottle 10 [(3, (0, 1)), (5, (0, 2)), (20, (0, 3))]).pendingFire = none) :=
  ⟨⟨by decide, by decide⟩,
    c9_trailing_edge_throttle 10 [(3, (0, 1)), (5, (0, 2)), (20, (0, 3))]
      (by decide) (by decide)⟩


end DOMC
